import Mathlib

set_option maxHeartbeats 1000000

set_option synthInstance.maxSize 512

/-!
Verification development for the AllocatorCustom page-granular multi-zone
allocator.  The definitions below are a shallow embedding of the C++ sources
(`PageBitmap.cpp`, `Quarantine.cpp`, `BlockGuard.cpp`, `PageAllocator.cpp`,
`AllocatorCustomCpp.cpp`) with the default compile-time configuration of
`AllocConf.h` (page size 1024, header/footer 32 bytes, 2 zones, quarantine
capacity 32, `ALLOC_FILL_ON_FREE = 1`, `ALLOC_ENABLE_CLEAR_ON_EVICT = 1`,
`ALLOC_QUARANTINE_CHECK_LEVEL = 1`, `ALLOC_CHECK_ALL_ALLOCATED = 0`,
`ALLOC_ENABLE_MPU_PROTECTION = 0`).  Machine integers are modelled as `Nat`
with explicit reductions `% 2^w` exactly where the C code can wrap or
truncate (uint16/uint32 casts, `size_t` additions); `ALLOC_ASSERT` is the
release-build no-op, so every assertion of the C code reappears here as a
hypothesis of the corresponding theorem instead.  Memory is a byte map
`Nat → Nat`; each stored byte is reduced `% 256` on load, mirroring `uint8_t`.
-/

namespace AllocCustom

/-! ### Configuration constants (AllocConf.h defaults) -/

def ALLOC_PAGE_SIZE : Nat := 1024

def ALLOC_HEADER_SIZE : Nat := 32

def ALLOC_FOOTER_SIZE : Nat := 32

def ALLOC_MAX_ZONES : Nat := 2

def ALLOC_MAX_PAGES_PER_ZONE : Nat := 10240

def ALLOC_QUARANTINE_CAPACITY : Nat := 32

def ALLOC_PATTERN_HEADER_MAGIC : Nat := 0x48454144

def ALLOC_PATTERN_FOOTER_MAGIC : Nat := 0x464F4F54

def ALLOC_PATTERN_PADDING : Nat := 0xFE

def ALLOC_PATTERN_QUARANTINE_FILL : Nat := 0xCD

def ALLOC_PATTERN_CLEARED_PAGE : Nat := 0x00

/-- Modulus of the C `uint16_t` type. -/
def U16 : Nat := 2 ^ 16

/-- Modulus of the C `uint32_t` type. -/
def U32 : Nat := 2 ^ 32

/-- Modulus of `size_t` on the 32-bit embedded target the allocator is built for. -/
def SIZE_T_MOD : Nat := 2 ^ 32

/-- `SIZE_MAX` of the target. -/
def SIZE_MAX : Nat := SIZE_T_MOD - 1

/-- `UINT32_MAX`, the start value of the minimum search in `QuarantineTable::findOldest`. -/
def UINT32_MAX : Nat := U32 - 1

/-- Wrapping `size_t` addition. -/
def szAdd (a b : Nat) : Nat := (a + b) % SIZE_T_MOD

/-- Wrapping `size_t` subtraction (two's complement). -/
def szSub (a b : Nat) : Nat := (a % SIZE_T_MOD + SIZE_T_MOD - b % SIZE_T_MOD) % SIZE_T_MOD

/-! ### A bounded counter used to state population counts

`countBelow p n` is the number of `i < n` with `p i = true`; it plays the
role of `popcount` over the first `n` bits of a bitmap and of the number of
active entries of a quarantine table. -/

def countBelow (p : Nat → Bool) : Nat → Nat
  | 0 => 0
  | n + 1 => countBelow p n + (if p n then 1 else 0)

theorem countBelow_le (p : Nat → Bool) (n : Nat) : countBelow p n ≤ n := by
  induction n with
  | zero => simp [countBelow]
  | succ n ih =>
    simp only [countBelow]
    split <;> omega

theorem countBelow_congr {p q : Nat → Bool} (n : Nat)
    (h : ∀ i, i < n → p i = q i) : countBelow p n = countBelow q n := by
  induction n with
  | zero => rfl
  | succ n ih =>
    simp only [countBelow]
    rw [ih fun i hi => h i (Nat.lt_succ_of_lt hi), h n (Nat.lt_succ_self n)]

theorem countBelow_update_true {p q : Nat → Bool} {i n : Nat} (hi : i < n)
    (hq : ∀ j, j ≠ i → q j = p j) (hqi : q i = true) (hpi : p i = false) :
    countBelow q n = countBelow p n + 1 := by
  induction n with
  | zero => omega
  | succ n ih =>
    simp only [countBelow]
    rcases Nat.lt_succ_iff_lt_or_eq.mp hi with h | h
    · have hne : n ≠ i := by omega
      rw [hq n hne, ih h]
      omega
    · subst h
      rw [countBelow_congr _ fun j hj => hq j (by omega), hqi, hpi]
      simp

theorem countBelow_update_false {p q : Nat → Bool} {i n : Nat} (hi : i < n)
    (hq : ∀ j, j ≠ i → q j = p j) (hqi : q i = false) (hpi : p i = true) :
    countBelow q n + 1 = countBelow p n := by
  induction n with
  | zero => omega
  | succ n ih =>
    simp only [countBelow]
    rcases Nat.lt_succ_iff_lt_or_eq.mp hi with h | h
    · have hne : n ≠ i := by omega
      rw [hq n hne]
      have := ih h
      omega
    · subst h
      rw [countBelow_congr _ fun j hj => hq j (by omega), hqi, hpi]
      simp

theorem countBelow_all_of_eq {p : Nat → Bool} {n : Nat}
    (h : countBelow p n = n) : ∀ i, i < n → p i = true := by
  induction n with
  | zero => omega
  | succ n ih =>
    intro i hi
    have hle := countBelow_le p n
    simp only [countBelow] at h
    have hpn : p n = true := by
      by_contra hb
      simp [hb] at h
      omega
    rcases Nat.lt_succ_iff_lt_or_eq.mp hi with h' | h'
    · exact ih (by simp [hpn] at h; omega) i h'
    · subst h'; exact hpn

theorem countBelow_exists_false {p : Nat → Bool} {n : Nat}
    (h : countBelow p n < n) : ∃ i, i < n ∧ p i = false := by
  induction n with
  | zero => omega
  | succ n ih =>
    simp only [countBelow] at h
    by_cases hpn : p n = true
    · simp [hpn] at h
      obtain ⟨i, hi, hp⟩ := ih (by omega)
      exact ⟨i, Nat.lt_succ_of_lt hi, hp⟩
    · exact ⟨n, Nat.lt_succ_self n, by simpa using hpn⟩

theorem countBelow_mono (p : Nat → Bool) {m n : Nat} (h : m ≤ n) :
    countBelow p m ≤ countBelow p n := by
  induction n with
  | zero =>
    have hm : m = 0 := by omega
    subst hm; exact Nat.le_refl _
  | succ n ih =>
    rcases Nat.lt_succ_iff_lt_or_eq.mp (Nat.lt_succ_of_le h) with h' | h'
    · refine Nat.le_trans (ih (by omega)) ?_
      simp only [countBelow]
      split <;> omega
    · subst h'; exact Nat.le_refl _

theorem countBelow_ge_of_range {p : Nat → Bool} {s c n : Nat}
    (hn : s + c ≤ n) (h : ∀ k, k < c → p (s + k) = true) : c ≤ countBelow p n := by
  have base : ∀ c', (∀ k, k < c' → p (s + k) = true) → c' ≤ countBelow p (s + c') := by
    intro c'
    induction c' with
    | zero => intro _; omega
    | succ c' ih =>
      intro hall
      have h1 := ih fun k hk => hall k (Nat.lt_succ_of_lt hk)
      have h2 : p (s + c') = true := hall c' (Nat.lt_succ_self c')
      have : s + (c' + 1) = (s + c') + 1 := by omega
      rw [this]
      simp only [countBelow, h2, if_pos]
      omega
  exact Nat.le_trans (base c h) (countBelow_mono p hn)

/-! ### PageBitmap (PageBitmap.hpp / PageBitmap.cpp)

The C struct stores `uint32_t words[kMaxWords]`; we model the word array
as a total function `Nat → Nat` whose values stay below `2^32` along every
operation (`init` zeroes them, `set` ors in one bit below `2^32`, `clear`
ands with a 32-bit mask). -/

structure PageBitmap where
  words : Nat → Nat
  pageCount : Nat

/-- `PageBitmap::init`: zero all storage, record the capacity
(`ALLOC_ASSERT(count <= ALLOC_MAX_PAGES_PER_ZONE)` is a release no-op). -/
def PageBitmap.init (count : Nat) : PageBitmap :=
  { words := fun _ => 0, pageCount := count }

/-- `PageBitmap::set`: `words[page / 32] |= 1u << (page % 32)`. -/
def PageBitmap.set (bm : PageBitmap) (page : Nat) : PageBitmap :=
  { bm with words := fun w =>
      if w = page / 32 then bm.words (page / 32) ||| (1 <<< (page % 32)) else bm.words w }

/-- `PageBitmap::clear`: `words[page / 32] &= ~(1u << (page % 32))`
(`~` on `uint32_t` is xor with `0xFFFFFFFF`). -/
def PageBitmap.clear (bm : PageBitmap) (page : Nat) : PageBitmap :=
  { bm with words := fun w =>
      if w = page / 32 then bm.words (page / 32) &&& (0xFFFFFFFF ^^^ (1 <<< (page % 32)))
      else bm.words w }

/-- `PageBitmap::test`: `(words[page / 32] & (1u << (page % 32))) != 0`. -/
def PageBitmap.test (bm : PageBitmap) (page : Nat) : Bool :=
  (bm.words (page / 32)) &&& (1 <<< (page % 32)) != 0

/-- `PageBitmap::setRange`: `for i in [0, count) set (start + i)`. -/
def PageBitmap.setRange (bm : PageBitmap) (start count : Nat) : PageBitmap :=
  match count with
  | 0 => bm
  | c + 1 => (bm.set start).setRange (start + 1) c

/-- `PageBitmap::clearRange`: `for i in [0, count) clear (start + i)`. -/
def PageBitmap.clearRange (bm : PageBitmap) (start count : Nat) : PageBitmap :=
  match count with
  | 0 => bm
  | c + 1 => (bm.clear start).clearRange (start + 1) c

/-- Number of set bits among the first `pageCount` bits (the mathematical
`popcount(inUse)` of the specification). -/
def PageBitmap.popcount (bm : PageBitmap) : Nat :=
  countBelow (fun i => bm.test i) bm.pageCount

/-- Loop body of `PageBitmap::findFreeRun`.  `i` is the scan position,
`runStart`/`runLen` the current run of zero bits; a whole `uint32_t` word
equal to `0xFFFFFFFF` is skipped when the current run is empty (the C code
sets `i = (wordIdx + 1) * 32 - 1` and lets `++i` of the loop act).  The
first argument is structural recursion fuel: the loop runs only while
`i < pageCount` and `i` strictly increases each iteration, so the
`pageCount` fuel supplied by `findFreeRun` is never exhausted. -/
def findFreeRunAux (bm : PageBitmap) (count : Nat) : Nat → Nat → Nat → Nat → Int
  | 0, _, _, _ => -1
  | fuel + 1, i, runStart, runLen =>
    if i < bm.pageCount then
      if runLen = 0 ∧ bm.words (i / 32) = 0xFFFFFFFF then
        findFreeRunAux bm count fuel ((i / 32 + 1) * 32) runStart 0
      else if bm.test i = false then
        if count ≤ runLen + 1 then Int.ofNat (if runLen = 0 then i else runStart)
        else findFreeRunAux bm count fuel (i + 1) (if runLen = 0 then i else runStart) (runLen + 1)
      else
        findFreeRunAux bm count fuel (i + 1) runStart 0
    else
      -1

/-- `PageBitmap::findFreeRun`. -/
def PageBitmap.findFreeRun (bm : PageBitmap) (count : Nat) : Int :=
  if count = 0 ∨ bm.pageCount < count then -1
  else findFreeRunAux bm count bm.pageCount 0 0 0

/-! #### Bit-level lemmas about the bitmap operations -/

theorem PageBitmap.test_eq_testBit (bm : PageBitmap) (p : Nat) :
    bm.test p = (bm.words (p / 32)).testBit (p % 32) := by
  unfold PageBitmap.test
  rw [Nat.shiftLeft_eq, Nat.one_mul, Nat.and_two_pow]
  have hp : (2 : Nat) ^ (p % 32) ≠ 0 := (Nat.pow_pos (by omega)).ne'
  cases h : (bm.words (p / 32)).testBit (p % 32) <;> simp [h, hp]

theorem div_mod_eq_iff {a b : Nat} : a = b ↔ a / 32 = b / 32 ∧ a % 32 = b % 32 := by
  constructor
  · rintro rfl; exact ⟨rfl, rfl⟩
  · rintro ⟨h1, h2⟩
    have ha := Nat.div_add_mod a 32
    have hb := Nat.div_add_mod b 32
    omega

theorem ones32_testBit {k : Nat} (hk : k < 32) : (0xFFFFFFFF : Nat).testBit k = true := by
  have h32 : (0xFFFFFFFF : Nat) = 2 ^ 32 - 1 := by norm_num
  rw [h32, Nat.testBit_two_pow_sub_one]
  simpa using hk

theorem PageBitmap.test_set (bm : PageBitmap) (p q : Nat) :
    (bm.set p).test q = if q = p then true else bm.test q := by
  rw [PageBitmap.test_eq_testBit, PageBitmap.test_eq_testBit]
  show (if q / 32 = p / 32 then bm.words (p / 32) ||| (1 <<< (p % 32))
        else bm.words (q / 32)).testBit (q % 32) = _
  by_cases hqp : q = p
  · subst hqp
    rw [if_pos rfl, if_pos rfl, Nat.shiftLeft_eq, Nat.one_mul, Nat.testBit_lor,
      Nat.testBit_two_pow_self]
    simp
  · rw [if_neg hqp]
    by_cases hw : q / 32 = p / 32
    · have hb : q % 32 ≠ p % 32 := fun h => hqp (div_mod_eq_iff.mpr ⟨hw, h⟩)
      rw [if_pos hw, Nat.shiftLeft_eq, Nat.one_mul, Nat.testBit_lor,
        Nat.testBit_two_pow_of_ne (fun h => hb h.symm), hw]
      simp
    · rw [if_neg hw]

theorem PageBitmap.test_clear (bm : PageBitmap) (p q : Nat) :
    (bm.clear p).test q = if q = p then false else bm.test q := by
  rw [PageBitmap.test_eq_testBit, PageBitmap.test_eq_testBit]
  show (if q / 32 = p / 32 then bm.words (p / 32) &&& (0xFFFFFFFF ^^^ (1 <<< (p % 32)))
        else bm.words (q / 32)).testBit (q % 32) = _
  have hq32 : q % 32 < 32 := Nat.mod_lt q (by omega)
  by_cases hqp : q = p
  · subst hqp
    rw [if_pos rfl, if_pos rfl, Nat.shiftLeft_eq, Nat.one_mul, Nat.testBit_land,
      Nat.testBit_xor, ones32_testBit hq32, Nat.testBit_two_pow_self]
    simp
  · rw [if_neg hqp]
    by_cases hw : q / 32 = p / 32
    · have hb : q % 32 ≠ p % 32 := fun h => hqp (div_mod_eq_iff.mpr ⟨hw, h⟩)
      rw [if_pos hw, Nat.shiftLeft_eq, Nat.one_mul, Nat.testBit_land, Nat.testBit_xor,
        ones32_testBit hq32, Nat.testBit_two_pow_of_ne (fun h => hb h.symm), hw]
      simp
    · rw [if_neg hw]

theorem PageBitmap.pageCount_set (bm : PageBitmap) (p : Nat) :
    (bm.set p).pageCount = bm.pageCount := rfl

theorem PageBitmap.pageCount_clear (bm : PageBitmap) (p : Nat) :
    (bm.clear p).pageCount = bm.pageCount := rfl

theorem PageBitmap.pageCount_setRange (bm : PageBitmap) (s c : Nat) :
    (bm.setRange s c).pageCount = bm.pageCount := by
  induction c generalizing bm s with
  | zero => rfl
  | succ c ih =>
    show ((bm.set s).setRange (s + 1) c).pageCount = _
    rw [ih]
    rfl

theorem PageBitmap.pageCount_clearRange (bm : PageBitmap) (s c : Nat) :
    (bm.clearRange s c).pageCount = bm.pageCount := by
  induction c generalizing bm s with
  | zero => rfl
  | succ c ih =>
    show ((bm.clear s).clearRange (s + 1) c).pageCount = _
    rw [ih]
    rfl

theorem PageBitmap.test_setRange (bm : PageBitmap) (s c q : Nat) :
    (bm.setRange s c).test q = if s ≤ q ∧ q < s + c then true else bm.test q := by
  induction c generalizing bm s with
  | zero =>
    show bm.test q = _
    rw [if_neg (by omega : ¬(s ≤ q ∧ q < s + 0))]
  | succ c ih =>
    show ((bm.set s).setRange (s + 1) c).test q = _
    rw [ih, PageBitmap.test_set]
    by_cases h1 : s + 1 ≤ q ∧ q < s + 1 + c
    · rw [if_pos h1, if_pos (by omega)]
    · rw [if_neg h1]
      by_cases h2 : q = s
      · rw [if_pos h2, if_pos (by omega)]
      · rw [if_neg h2, if_neg (by omega)]

theorem PageBitmap.test_clearRange (bm : PageBitmap) (s c q : Nat) :
    (bm.clearRange s c).test q = if s ≤ q ∧ q < s + c then false else bm.test q := by
  induction c generalizing bm s with
  | zero =>
    show bm.test q = _
    rw [if_neg (by omega : ¬(s ≤ q ∧ q < s + 0))]
  | succ c ih =>
    show ((bm.clear s).clearRange (s + 1) c).test q = _
    rw [ih, PageBitmap.test_clear]
    by_cases h1 : s + 1 ≤ q ∧ q < s + 1 + c
    · rw [if_pos h1, if_pos (by omega)]
    · rw [if_neg h1]
      by_cases h2 : q = s
      · rw [if_pos h2, if_pos (by omega)]
      · rw [if_neg h2, if_neg (by omega)]

/-- A run of `count` zero bits starting at page `i`, entirely inside the bitmap:
the property `findFreeRun` searches for. -/
def freeRun (bm : PageBitmap) (count i : Nat) : Prop :=
  i + count ≤ bm.pageCount ∧ ∀ k, k < count → bm.test (i + k) = false

theorem findFreeRunAux_sound (bm : PageBitmap) (count : Nat) :
    ∀ n i runStart runLen, runLen < count →
      (runLen ≠ 0 → runStart + runLen = i ∧
        ∀ k, runStart ≤ k → k < i → bm.test k = false) →
      ∀ s : Nat, findFreeRunAux bm count n i runStart runLen = Int.ofNat s →
        freeRun bm count s := by
  intro n
  induction n with
  | zero =>
    intro i runStart runLen hlen hinv s heq
    exact absurd heq (by simp [findFreeRunAux])
  | succ n ih =>
    intro i runStart runLen hlen hinv s heq
    by_cases hip : i < bm.pageCount
    · rw [findFreeRunAux, if_pos hip] at heq
      by_cases hskip : runLen = 0 ∧ bm.words (i / 32) = 0xFFFFFFFF
      · rw [if_pos hskip] at heq
        exact ih ((i / 32 + 1) * 32) runStart 0 (by omega)
          (by intro h; omega) s heq
      · rw [if_neg hskip] at heq
        by_cases hbit : bm.test i = false
        · rw [if_pos hbit] at heq
          by_cases hret : count ≤ runLen + 1
          · rw [if_pos hret] at heq
            have hcount : count = runLen + 1 := by omega
            by_cases hrl : runLen = 0
            · rw [if_pos hrl] at heq
              have hs : s = i := (Int.ofNat.inj heq).symm
              rw [hs]
              refine ⟨by omega, ?_⟩
              intro k hk
              have hk0 : k = 0 := by omega
              subst hk0
              simpa using hbit
            · rw [if_neg hrl] at heq
              have hs : s = runStart := (Int.ofNat.inj heq).symm
              rw [hs]
              obtain ⟨hsum, hfree⟩ := hinv hrl
              refine ⟨by omega, ?_⟩
              intro k hk
              by_cases hk2 : k < runLen
              · exact hfree (runStart + k) (by omega) (by omega)
              · have hki : runStart + k = i := by omega
                rw [hki]
                simpa using hbit
          · rw [if_neg hret] at heq
            refine ih (i + 1) (if runLen = 0 then i else runStart) (runLen + 1)
              (by omega) ?_ s heq
            intro _
            by_cases hrl : runLen = 0
            · rw [if_pos hrl]
              constructor
              · omega
              · intro k hk1 hk2
                have : k = i := by omega
                subst this
                simpa using hbit
            · rw [if_neg hrl]
              obtain ⟨hsum, hfree⟩ := hinv hrl
              constructor
              · omega
              · intro k hk1 hk2
                by_cases hk3 : k < i
                · exact hfree k hk1 hk3
                · have : k = i := by omega
                  subst this
                  simpa using hbit
        · rw [if_neg hbit] at heq
          exact ih (i + 1) runStart 0 (by omega) (by intro h; omega) s heq
    · rw [findFreeRunAux, if_neg hip] at heq
      exact absurd heq (by simp)

/-- Soundness of `PageBitmap::findFreeRun`: a non-negative result denotes a
run of `count` zero bits inside the bitmap. -/
theorem PageBitmap.findFreeRun_sound (bm : PageBitmap) (count : Nat) (s : Nat)
    (h : bm.findFreeRun count = Int.ofNat s) : freeRun bm count s := by
  unfold PageBitmap.findFreeRun at h
  by_cases hg : count = 0 ∨ bm.pageCount < count
  · rw [if_pos hg] at h
    exact absurd h (by simp)
  · rw [if_neg hg] at h
    push_neg at hg
    exact findFreeRunAux_sound bm count bm.pageCount 0 0 0 (by omega)
      (by intro hcon; omega) s h

theorem popcount_setRange_core :
    ∀ (c : Nat) (bm : PageBitmap) (s : Nat), s + c ≤ bm.pageCount →
      (∀ k, k < c → bm.test (s + k) = false) →
      countBelow (fun i => (bm.setRange s c).test i) bm.pageCount =
        countBelow (fun i => bm.test i) bm.pageCount + c := by
  intro c
  induction c with
  | zero =>
    intro bm s _ _
    simp [PageBitmap.setRange]
  | succ c ih =>
    intro bm s hb hfree
    show countBelow (fun i => ((bm.set s).setRange (s + 1) c).test i) bm.pageCount = _
    have hfree' : ∀ k, k < c → (bm.set s).test (s + 1 + k) = false := by
      intro k hk
      rw [PageBitmap.test_set, if_neg (by omega)]
      have := hfree (1 + k) (by omega)
      rwa [show s + (1 + k) = s + 1 + k by omega] at this
    have hrec := ih (bm.set s) (s + 1)
      (by rw [PageBitmap.pageCount_set]; omega) hfree'
    rw [PageBitmap.pageCount_set] at hrec
    rw [hrec]
    have h0 : bm.test s = false := by simpa using hfree 0 (by omega)
    have hupd : countBelow (fun i => (bm.set s).test i) bm.pageCount =
        countBelow (fun i => bm.test i) bm.pageCount + 1 := by
      refine countBelow_update_true (i := s) (by omega) ?_ ?_ h0
      · intro j hj
        rw [PageBitmap.test_set, if_neg hj]
      · rw [PageBitmap.test_set, if_pos rfl]
    omega

theorem popcount_clearRange_core :
    ∀ (c : Nat) (bm : PageBitmap) (s : Nat), s + c ≤ bm.pageCount →
      (∀ k, k < c → bm.test (s + k) = true) →
      countBelow (fun i => (bm.clearRange s c).test i) bm.pageCount + c =
        countBelow (fun i => bm.test i) bm.pageCount := by
  intro c
  induction c with
  | zero =>
    intro bm s _ _
    simp [PageBitmap.clearRange]
  | succ c ih =>
    intro bm s hb hset
    show countBelow (fun i => ((bm.clear s).clearRange (s + 1) c).test i) bm.pageCount + _ = _
    have hset' : ∀ k, k < c → (bm.clear s).test (s + 1 + k) = true := by
      intro k hk
      rw [PageBitmap.test_clear, if_neg (by omega)]
      have := hset (1 + k) (by omega)
      rwa [show s + (1 + k) = s + 1 + k by omega] at this
    have hrec := ih (bm.clear s) (s + 1)
      (by rw [PageBitmap.pageCount_clear]; omega) hset'
    rw [PageBitmap.pageCount_clear] at hrec
    have h0 : bm.test s = true := by simpa using hset 0 (by omega)
    have hupd : countBelow (fun i => (bm.clear s).test i) bm.pageCount + 1 =
        countBelow (fun i => bm.test i) bm.pageCount := by
      refine countBelow_update_false (i := s) (by omega) ?_ ?_ h0
      · intro j hj
        rw [PageBitmap.test_clear, if_neg hj]
      · rw [PageBitmap.test_clear, if_pos rfl]
    omega

theorem PageBitmap.popcount_setRange (bm : PageBitmap) {s c : Nat}
    (hb : s + c ≤ bm.pageCount) (hfree : ∀ k, k < c → bm.test (s + k) = false) :
    (bm.setRange s c).popcount = bm.popcount + c := by
  unfold PageBitmap.popcount
  rw [PageBitmap.pageCount_setRange]
  exact popcount_setRange_core c bm s hb hfree

theorem PageBitmap.popcount_clearRange (bm : PageBitmap) {s c : Nat}
    (hb : s + c ≤ bm.pageCount) (hset : ∀ k, k < c → bm.test (s + k) = true) :
    (bm.clearRange s c).popcount + c = bm.popcount := by
  unfold PageBitmap.popcount
  rw [PageBitmap.pageCount_clearRange]
  exact popcount_clearRange_core c bm s hb hset

/-! ### BlockGuard records (AllocTypes.h / BlockGuard.cpp)

`AllocBlockHeader` and `AllocBlockFooter` have the same 32-byte layout, so a
single record type models both.  The `reserved` field packs the three
`uint8_t reserved[3]` bytes little-endian.  `recWords` lists the eight
32-bit little-endian words of the struct in declaration order. -/

structure GuardRec where
  magic : Nat
  requestedSize : Nat
  startPage : Nat
  pageCount : Nat
  zoneIndex : Nat
  reserved : Nat
  sequenceNum : Nat
  reserved2 : Nat
  reserved3 : Nat
  checksum : Nat

/-- The eight 32-bit words of a header/footer record, in memory order. -/
def recWords (r : GuardRec) : List Nat :=
  [r.magic, r.requestedSize, r.startPage + r.pageCount * 2 ^ 16,
   r.zoneIndex + r.reserved * 2 ^ 8, r.sequenceNum, r.reserved2, r.reserved3, r.checksum]

/-- `BlockGuard::computeChecksum`: XOR of every 32-bit word of the record
except the last one (the checksum field itself). -/
def computeChecksum (ws : List Nat) : Nat :=
  ws.dropLast.foldl (fun a b => a ^^^ b) 0

/-- `BlockGuard::writeHeader`: populate the record (reserved words zeroed)
and store the XOR checksum.  The parameters carry the C types
`uint32_t, uint16_t, uint16_t, uint8_t, uint32_t`, hence the reductions. -/
def writeHeader (requestedSize startPage pageCount zoneIndex sequenceNum : Nat) : GuardRec :=
  let base : GuardRec :=
    { magic := ALLOC_PATTERN_HEADER_MAGIC, requestedSize := requestedSize % U32,
      startPage := startPage % U16, pageCount := pageCount % U16,
      zoneIndex := zoneIndex % 2 ^ 8, reserved := 0,
      sequenceNum := sequenceNum % U32, reserved2 := 0, reserved3 := 0, checksum := 0 }
  { base with checksum := computeChecksum (recWords base) }

/-- `BlockGuard::writeFooter`: same fields with the footer magic. -/
def writeFooter (requestedSize startPage pageCount zoneIndex sequenceNum : Nat) : GuardRec :=
  let base : GuardRec :=
    { magic := ALLOC_PATTERN_FOOTER_MAGIC, requestedSize := requestedSize % U32,
      startPage := startPage % U16, pageCount := pageCount % U16,
      zoneIndex := zoneIndex % 2 ^ 8, reserved := 0,
      sequenceNum := sequenceNum % U32, reserved2 := 0, reserved3 := 0, checksum := 0 }
  { base with checksum := computeChecksum (recWords base) }

/-- `BlockGuard::validateHeader`: header magic matches and the checksum
recomputes. -/
def validateHeader (r : GuardRec) : Bool :=
  r.magic == ALLOC_PATTERN_HEADER_MAGIC && r.checksum == computeChecksum (recWords r)

/-- `BlockGuard::validateFooter`. -/
def validateFooter (r : GuardRec) : Bool :=
  r.magic == ALLOC_PATTERN_FOOTER_MAGIC && r.checksum == computeChecksum (recWords r)

/-- `BlockGuard::validatePair`: all mirrored fields agree. -/
def validatePair (h f : GuardRec) : Bool :=
  h.requestedSize == f.requestedSize && h.startPage == f.startPage &&
  h.pageCount == f.pageCount && h.zoneIndex == f.zoneIndex &&
  h.sequenceNum == f.sequenceNum

/-! ### Byte-level memory

Memory is a byte map; a read reduces the stored value `% 256` (`uint8_t`).
`recByte` serialises a guard record little-endian, `storeRec` writes its 32
bytes, `parseRec` reads a record back; `memFill` is `memset`. -/

def byteAt (m : Nat → Nat) (a : Nat) : Nat := m a % 256

def loadWord (m : Nat → Nat) (a : Nat) : Nat :=
  byteAt m a + byteAt m (a + 1) * 2 ^ 8 + byteAt m (a + 2) * 2 ^ 16 + byteAt m (a + 3) * 2 ^ 24

def load16 (m : Nat → Nat) (a : Nat) : Nat :=
  byteAt m a + byteAt m (a + 1) * 2 ^ 8

/-- Byte `j` of the serialised 32-byte record. -/
def recByte (r : GuardRec) (j : Nat) : Nat :=
  ((recWords r).getD (j / 4) 0) / 2 ^ (8 * (j % 4)) % 256

/-- Write the 32 bytes of a guard record at address `a`. -/
def storeRec (m : Nat → Nat) (a : Nat) (r : GuardRec) : Nat → Nat :=
  fun x => if a ≤ x ∧ x < a + 32 then recByte r (x - a) else m x

/-- Read a guard record stored at address `a` (little-endian field layout of
`AllocBlockHeader` / `AllocBlockFooter`). -/
def parseRec (m : Nat → Nat) (a : Nat) : GuardRec :=
  { magic := loadWord m a, requestedSize := loadWord m (a + 4),
    startPage := load16 m (a + 8), pageCount := load16 m (a + 10),
    zoneIndex := byteAt m (a + 12),
    reserved := byteAt m (a + 13) + byteAt m (a + 14) * 2 ^ 8 + byteAt m (a + 15) * 2 ^ 16,
    sequenceNum := loadWord m (a + 16), reserved2 := loadWord m (a + 20),
    reserved3 := loadWord m (a + 24), checksum := loadWord m (a + 28) }

/-- `memset(dst + 0 .. dst + len)` with byte `v`: the model of the pattern
fills (`fillPadding`, `fillQuarantinePayload`, `fillClearedPages`) and of the
`memset` in `calloc`. -/
def memFill (m : Nat → Nat) (dst len v : Nat) : Nat → Nat :=
  fun x => if dst ≤ x ∧ x < dst + len then v else m x

/-! ### Quarantine table (Quarantine.hpp / Quarantine.cpp)

The entry array `entries[ALLOC_QUARANTINE_CAPACITY]` is a total function;
only indices below the capacity are ever used. -/

structure AllocQuarantineEntry where
  startPage : Nat
  pageCount : Nat
  requestedSize : Nat
  freeSequence : Nat
  mpuRegion : Int
  zoneIndex : Nat
  active : Nat
  reserved : Nat
deriving DecidableEq

/-- The all-zero entry produced by `memset(entries, 0, sizeof(entries))`. -/
def emptyEntry : AllocQuarantineEntry :=
  { startPage := 0, pageCount := 0, requestedSize := 0, freeSequence := 0,
    mpuRegion := 0, zoneIndex := 0, active := 0, reserved := 0 }

structure QuarantineTable where
  entries : Nat → AllocQuarantineEntry
  nextSequence : Nat
  activeCount : Nat

/-- `QuarantineTable::init`: zero all entries, `nextSequence = 1`,
`activeCount = 0`. -/
def QuarantineTable.init : QuarantineTable :=
  { entries := fun _ => emptyEntry, nextSequence := 1, activeCount := 0 }

/-- Loop of `QuarantineTable::findOldest`: track the first active entry with
the strictly smallest `freeSequence` seen so far (`minSeq` starts at
`UINT32_MAX`). -/
def findOldestGo (e : Nat → AllocQuarantineEntry) : Nat → Nat → Option Nat → Nat → Option Nat
  | 0, _, best, _ => best
  | fuel + 1, i, best, minSeq =>
    if i < ALLOC_QUARANTINE_CAPACITY then
      if (e i).active ≠ 0 ∧ (e i).freeSequence < minSeq then
        findOldestGo e fuel (i + 1) (some i) (e i).freeSequence
      else
        findOldestGo e fuel (i + 1) best minSeq
    else best

/-- `QuarantineTable::findOldest` (returns the index of the entry the C code
returns a pointer to, `none` for `nullptr`).  The loop runs exactly
`ALLOC_QUARANTINE_CAPACITY` iterations, which is the structural fuel. -/
def QuarantineTable.findOldest (q : QuarantineTable) : Option Nat :=
  findOldestGo q.entries ALLOC_QUARANTINE_CAPACITY 0 none UINT32_MAX

/-- The slot-search loop of `QuarantineTable::add`: first inactive index
(structural fuel, `ALLOC_QUARANTINE_CAPACITY` iterations at most). -/
def findFreeSlotGo (e : Nat → AllocQuarantineEntry) : Nat → Nat → Option Nat
  | 0, _ => none
  | fuel + 1, i =>
    if i < ALLOC_QUARANTINE_CAPACITY then
      if (e i).active = 0 then some i else findFreeSlotGo e fuel (i + 1)
    else none

/-- `QuarantineTable::isFull`: `activeCount >= ALLOC_QUARANTINE_CAPACITY`. -/
def QuarantineTable.isFull (q : QuarantineTable) : Bool :=
  decide (ALLOC_QUARANTINE_CAPACITY ≤ q.activeCount)

/-- The entry `QuarantineTable::add` writes into the chosen slot
(`freeSequence = nextSequence`, `mpuRegion = -1`, `active = 1`); the C
parameter types are `uint16_t, uint16_t, uint32_t, uint8_t`. -/
def mkQuarEntry (startPage pageCount requestedSize zoneIndex seq : Nat) :
    AllocQuarantineEntry :=
  { startPage := startPage % U16, pageCount := pageCount % U16,
    requestedSize := requestedSize % U32, freeSequence := seq, mpuRegion := -1,
    zoneIndex := zoneIndex % 2 ^ 8, active := 1, reserved := 0 }

/-- `QuarantineTable::add`.  If the table is full, the oldest active entry is
copied to the out-parameter and deactivated; then the new region is written
into the first inactive slot with `freeSequence = nextSequence++`,
`mpuRegion = -1`, `active = 1`.  Returns `(didEvict, evicted)` and the new
table.  The two `ALLOC_ASSERT`s (`oldest != nullptr`, `slot != nullptr`) are
release no-ops; in the corresponding (unreachable under the table invariant)
cases the model leaves the table unchanged.  Parameter types in C are
`uint16_t, uint16_t, uint32_t, uint8_t`. -/
def QuarantineTable.add (q : QuarantineTable)
    (startPage pageCount requestedSize zoneIndex : Nat) :
    (Bool × Option AllocQuarantineEntry) × QuarantineTable :=
  let step :=
    if ALLOC_QUARANTINE_CAPACITY ≤ q.activeCount then
      match q.findOldest with
      | some idx =>
          ((true, some (q.entries idx)),
           { q with
               entries := fun j =>
                 if j = idx then { q.entries idx with active := 0 } else q.entries j,
               activeCount := q.activeCount - 1 })
      | none => ((false, none), q)
    else ((false, none), q)
  match findFreeSlotGo step.2.entries ALLOC_QUARANTINE_CAPACITY 0 with
  | some sIdx =>
      (step.1,
       { step.2 with
           entries := fun j =>
             if j = sIdx then mkQuarEntry startPage pageCount requestedSize zoneIndex
               step.2.nextSequence
             else step.2.entries j,
           nextSequence := (step.2.nextSequence + 1) % U32,
           activeCount := step.2.activeCount + 1 })
  | none => (step.1, step.2)

/-- `QuarantineTable::deactivate` (the C version takes a pointer into
`entries`; the model takes the index).  `ALLOC_ASSERT(entry->active)` is a
release no-op; the `uint16_t` decrement cannot underflow when the assertion
holds. -/
def QuarantineTable.deactivate (q : QuarantineTable) (i : Nat) : QuarantineTable :=
  { q with
      entries := fun j => if j = i then { q.entries i with active := 0 } else q.entries j,
      activeCount := q.activeCount - 1 }

/-- Number of entries with `active = 1`: the quantity `activeCount` is
required to track. -/
def QuarantineTable.countActive (q : QuarantineTable) : Nat :=
  countBelow (fun i => (q.entries i).active != 0) ALLOC_QUARANTINE_CAPACITY

/-! ### PageAllocator (PageAllocator.hpp / PageAllocator.cpp)

The zone state; memory is threaded separately as a byte map, so the
operations have the shape `state → mem → args → (result, state, mem)`. -/

structure PageAllocator where
  baseAddress : Nat
  regionSize : Nat
  totalPages : Nat
  zoneIndex : Nat
  initialized : Bool
  bitmapInUse : PageBitmap
  bitmapAllocated : PageBitmap
  quarantine : QuarantineTable
  sequenceCounter : Nat
  freePagesCount : Nat
  minEverFreePages : Nat
  successfulAllocs : Nat
  successfulFrees : Nat

/-- `PageAllocator::init`.  `totalPages = (uint16_t)(size / ALLOC_PAGE_SIZE)`;
the assertions (`start != nullptr`, `size >= P`, `0 < totalPages <= max`) are
release no-ops. -/
def PageAllocator.init (start size zone : Nat) : PageAllocator :=
  { baseAddress := start, regionSize := size,
    totalPages := size / ALLOC_PAGE_SIZE % U16,
    zoneIndex := zone % 2 ^ 8, initialized := true,
    bitmapInUse := PageBitmap.init (size / ALLOC_PAGE_SIZE % U16),
    bitmapAllocated := PageBitmap.init (size / ALLOC_PAGE_SIZE % U16),
    quarantine := QuarantineTable.init,
    sequenceCounter := 0,
    freePagesCount := size / ALLOC_PAGE_SIZE % U16,
    minEverFreePages := size / ALLOC_PAGE_SIZE % U16,
    successfulAllocs := 0, successfulFrees := 0 }

/-- `PageAllocator::pagesNeeded`:
`(uint16_t)((H + requestedSize + F + P - 1) / P)` with `size_t` additions
that can wrap and a final truncating `uint16_t` cast. -/
def pagesNeeded (requestedSize : Nat) : Nat :=
  szAdd (szAdd (szAdd ALLOC_HEADER_SIZE requestedSize) ALLOC_FOOTER_SIZE)
      (ALLOC_PAGE_SIZE - 1) / ALLOC_PAGE_SIZE % U16

/-- `PageAllocator::pageAddress`: `baseAddress + pageIdx * P`. -/
def PageAllocator.pageAddress (s : PageAllocator) (idx : Nat) : Nat :=
  s.baseAddress + idx * ALLOC_PAGE_SIZE

/-- `BlockGuard::paddingSize`: `pageCount * P - (H + requestedSize + F)` in
`size_t` arithmetic; the guarding `ALLOC_ASSERT(totalBytes >= usedBytes)` is
a release no-op, so the subtraction can wrap. -/
def paddingSize (h : GuardRec) : Nat :=
  szSub (h.pageCount * ALLOC_PAGE_SIZE)
    (szAdd (szAdd ALLOC_HEADER_SIZE h.requestedSize) ALLOC_FOOTER_SIZE)

/-- `PageAllocator::allocate`.  Reject when uninitialized or zero-sized;
reject when `pages > freePagesCount`; first-fit search on `inUse`
(`ALLOC_QUARANTINE_CHECK_LEVEL = 1` only adds a release-no-op assertion);
then mark both bitmaps, write header, footer and padding, update the
counters and return `baseAddress + startPage * P + H`. -/
def PageAllocator.allocate (s : PageAllocator) (mem : Nat → Nat) (requestedSize : Nat) :
    Option Nat × PageAllocator × (Nat → Nat) :=
  if s.initialized = false ∨ requestedSize = 0 then (none, s, mem)
  else
    let pages := pagesNeeded requestedSize
    if s.freePagesCount < pages then (none, s, mem)
    else
      let sp32 := s.bitmapInUse.findFreeRun pages
      if sp32 < 0 then (none, s, mem)
      else
        let sp := sp32.toNat
        let seq := s.sequenceCounter
        let h := writeHeader requestedSize sp pages s.zoneIndex seq
        let headerAddr := s.pageAddress sp
        let mem2 := storeRec mem headerAddr h
        let footerAddr := headerAddr + ALLOC_HEADER_SIZE + h.requestedSize
        let f := writeFooter requestedSize sp pages s.zoneIndex seq
        let mem3 := storeRec mem2 footerAddr f
        let padLen := paddingSize h
        let mem4 :=
          if 0 < padLen then
            memFill mem3 (footerAddr + ALLOC_FOOTER_SIZE) padLen ALLOC_PATTERN_PADDING
          else mem3
        let free2 := s.freePagesCount - pages
        (some (headerAddr + ALLOC_HEADER_SIZE),
         { s with
             bitmapInUse := s.bitmapInUse.setRange sp pages,
             bitmapAllocated := s.bitmapAllocated.setRange sp pages,
             sequenceCounter := (s.sequenceCounter + 1) % U32,
             freePagesCount := free2,
             minEverFreePages :=
               if free2 < s.minEverFreePages then free2 else s.minEverFreePages,
             successfulAllocs := s.successfulAllocs + 1 },
         mem4)

/-- `PageAllocator::evictFromQuarantine`.  `MpuGuard::unprotect` is the stub
no-op; `ALLOC_ENABLE_CLEAR_ON_EVICT = 1` fills the evicted pages with 0x00;
the pages are cleared in `inUse` and returned to `freePagesCount`. -/
def PageAllocator.evictFromQuarantine (s : PageAllocator) (mem : Nat → Nat)
    (entry : AllocQuarantineEntry) : PageAllocator × (Nat → Nat) :=
  let mem2 := memFill mem (s.pageAddress entry.startPage)
      (entry.pageCount * ALLOC_PAGE_SIZE) ALLOC_PATTERN_CLEARED_PAGE
  ({ s with
       bitmapInUse := s.bitmapInUse.clearRange entry.startPage entry.pageCount,
       freePagesCount := s.freePagesCount + entry.pageCount },
   mem2)

/-- `PageAllocator::deallocate`.  The header is recovered at `userPtr - H`;
the validation `ALLOC_ASSERT`s (header, footer, pair, zone index, bounds) are
release no-ops and reappear as hypotheses of the theorems below.  The region
is quarantined (evicting the oldest entry if the table is full), the payload
is filled with the quarantine pattern (`ALLOC_FILL_ON_FREE = 1`), the
`allocated` bits are cleared while `inUse` stays set, and the free counter is
bumped (`ALLOC_ENABLE_MPU_PROTECTION = 0` compiles the MPU update out). -/
def PageAllocator.deallocate (s : PageAllocator) (mem : Nat → Nat) (userPtr : Nat) :
    PageAllocator × (Nat → Nat) :=
  if s.initialized = false ∨ userPtr = 0 then (s, mem)
  else
    let h := parseRec mem (userPtr - ALLOC_HEADER_SIZE)
    let r := s.quarantine.add h.startPage h.pageCount h.requestedSize s.zoneIndex
    let s1 := { s with quarantine := r.2 }
    let step2 :=
      if r.1.1 = true then
        match r.1.2 with
        | some ev => s1.evictFromQuarantine mem ev
        | none => (s1, mem)
      else (s1, mem)
    let mem3 := memFill step2.2 userPtr h.requestedSize ALLOC_PATTERN_QUARANTINE_FILL
    ({ step2.1 with
         bitmapAllocated := step2.1.bitmapAllocated.clearRange h.startPage h.pageCount,
         successfulFrees := step2.1.successfulFrees + 1 },
     mem3)

/-- `PageAllocator::calloc`: reject on multiplication overflow
(`num > 0 && elemSize > SIZE_MAX / num`), `allocate(num * elemSize)`, then
`memset(ptr, 0, total)` on success. -/
def PageAllocator.calloc (s : PageAllocator) (mem : Nat → Nat) (num elemSize : Nat) :
    Option Nat × PageAllocator × (Nat → Nat) :=
  if 0 < num ∧ SIZE_MAX / num < elemSize then (none, s, mem)
  else
    let total := num * elemSize % SIZE_T_MOD
    let r := s.allocate mem total
    match r.1 with
    | some p => (some p, r.2.1, memFill r.2.2 p total 0)
    | none => (none, r.2.1, r.2.2)

/-- `PageAllocator::isInitialized`. -/
def PageAllocator.isInitialized (s : PageAllocator) : Bool := s.initialized

/-! ### Multi-zone router (AllocatorZones.h / AllocatorCustomCpp.cpp)

`lock`/`unlock` and `assertNotISR` are concurrency scaffolding with no
effect on the allocator state and are not modelled. -/

inductive HeapZone where
  | any
  | fast
  | slow
  | fastPrefer
  | slowPrefer
deriving DecidableEq

structure ZoneRoute where
  primary : Nat
  secondary : Nat
  trySecondary : Bool

structure AllocatorCustomCpp where
  zones : Nat → PageAllocator
  activeZones : Nat
  currentZone : HeapZone
  initialized : Bool

/-- `AllocatorCustomCpp::resolveRoute` (the `default` branch of the C switch
coincides with `HEAP_ZONE_ANY`). -/
def resolveRoute (z : HeapZone) : ZoneRoute :=
  match z with
  | HeapZone.fast => { primary := 0, secondary := 0, trySecondary := false }
  | HeapZone.slow => { primary := 1, secondary := 1, trySecondary := false }
  | HeapZone.fastPrefer => { primary := 0, secondary := 1, trySecondary := true }
  | HeapZone.slowPrefer => { primary := 1, secondary := 0, trySecondary := true }
  | HeapZone.any => { primary := 0, secondary := 1, trySecondary := true }

/-- Replace zone `i` (the C code mutates `zones_[i]` in place). -/
def AllocatorCustomCpp.updateZone (a : AllocatorCustomCpp) (i : Nat)
    (z : PageAllocator) : AllocatorCustomCpp :=
  { a with zones := fun j => if j = i then z else a.zones j }

/-- The final loop of `AllocatorCustomCpp::allocateWithRoute`: try every
remaining zone in index order, skipping the primary and — only when
`trySecondary` holds — the secondary (structural fuel = number of zones). -/
def tryOtherZones (route : ZoneRoute) (size : Nat) :
    Nat → Nat → AllocatorCustomCpp → (Nat → Nat) →
      Option Nat × AllocatorCustomCpp × (Nat → Nat)
  | 0, _, a, mem => (none, a, mem)
  | fuel + 1, i, a, mem =>
    if i < a.activeZones then
      if i = route.primary then tryOtherZones route size fuel (i + 1) a mem
      else if route.trySecondary = true ∧ i = route.secondary then
        tryOtherZones route size fuel (i + 1) a mem
      else if (a.zones i).isInitialized = false then
        tryOtherZones route size fuel (i + 1) a mem
      else
        let r := (a.zones i).allocate mem size
        match r.1 with
        | some p => (some p, a.updateZone i r.2.1, r.2.2)
        | none => tryOtherZones route size fuel (i + 1) (a.updateZone i r.2.1) r.2.2
    else (none, a, mem)

/-- `AllocatorCustomCpp::allocateWithRoute`: primary attempt, secondary
attempt (guarded by `trySecondary`), then the unguarded loop over the
remaining zones. -/
def AllocatorCustomCpp.allocateWithRoute (a : AllocatorCustomCpp) (mem : Nat → Nat)
    (route : ZoneRoute) (size : Nat) : Option Nat × AllocatorCustomCpp × (Nat → Nat) :=
  let step1 :=
    if route.primary < a.activeZones ∧ (a.zones route.primary).isInitialized = true then
      let r := (a.zones route.primary).allocate mem size
      (r.1, a.updateZone route.primary r.2.1, r.2.2)
    else (none, a, mem)
  match step1.1 with
  | some p => (some p, step1.2.1, step1.2.2)
  | none =>
    let a1 := step1.2.1
    let m1 := step1.2.2
    let step2 :=
      if route.trySecondary = true ∧ route.secondary < a1.activeZones ∧
          route.secondary ≠ route.primary ∧
          (a1.zones route.secondary).isInitialized = true then
        let r := (a1.zones route.secondary).allocate m1 size
        (r.1, a1.updateZone route.secondary r.2.1, r.2.2)
      else (none, a1, m1)
    match step2.1 with
    | some p => (some p, step2.2.1, step2.2.2)
    | none => tryOtherZones route size step2.2.1.activeZones 0 step2.2.1 step2.2.2

/-- `AllocatorCustomCpp::allocate`: route according to the current zone
selector and delegate. -/
def AllocatorCustomCpp.allocate (a : AllocatorCustomCpp) (mem : Nat → Nat)
    (size : Nat) : Option Nat × AllocatorCustomCpp × (Nat → Nat) :=
  a.allocateWithRoute mem (resolveRoute a.currentZone) size

/-! ### Invariants (spec §3 and §8) -/

/-- Well-formedness of a quarantine table: `activeCount` matches the number
of active entries, active entries have pairwise distinct `freeSequence`
values, every active `freeSequence` is below `nextSequence`, and
`nextSequence` is a `uint32_t` value. -/
@[reducible] def QInv (q : QuarantineTable) : Prop :=
  q.activeCount = q.countActive ∧
  (∀ i, i < ALLOC_QUARANTINE_CAPACITY → ∀ j, j < ALLOC_QUARANTINE_CAPACITY → i ≠ j →
    (q.entries i).active ≠ 0 → (q.entries j).active ≠ 0 →
    (q.entries i).freeSequence ≠ (q.entries j).freeSequence) ∧
  (∀ i, i < ALLOC_QUARANTINE_CAPACITY → (q.entries i).active ≠ 0 →
    (q.entries i).freeSequence < q.nextSequence) ∧
  q.nextSequence < U32

/-- Two page ranges share no page. -/
@[reducible] def rangesDisjoint (s1 c1 s2 c2 : Nat) : Prop :=
  ∀ x, x < s1 + c1 → s1 ≤ x → ¬(s2 ≤ x ∧ x < s2 + c2)

/-- A quarantined region lies inside the zone; its pages are `inUse` and not
`allocated`. -/
@[reducible] def entryRangeOK (s : PageAllocator) (e : AllocQuarantineEntry) : Prop :=
  e.startPage + e.pageCount ≤ s.totalPages ∧
  ∀ k, k < e.pageCount →
    s.bitmapInUse.test (e.startPage + k) = true ∧
    s.bitmapAllocated.test (e.startPage + k) = false

/-- The zone invariant: bitmap capacities match the zone size,
`allocated ⊆ inUse`, every active quarantine entry covers in-use
non-allocated pages inside the zone, active entries are pairwise disjoint,
`freePagesCount + popcount(inUse) = N`, and the quarantine is well-formed. -/
@[reducible] def Inv (s : PageAllocator) : Prop :=
  s.bitmapInUse.pageCount = s.totalPages ∧
  s.bitmapAllocated.pageCount = s.totalPages ∧
  (∀ i, i < s.totalPages → s.bitmapAllocated.test i = true →
    s.bitmapInUse.test i = true) ∧
  (∀ j, j < ALLOC_QUARANTINE_CAPACITY → (s.quarantine.entries j).active ≠ 0 →
    entryRangeOK s (s.quarantine.entries j)) ∧
  (∀ j1, j1 < ALLOC_QUARANTINE_CAPACITY → ∀ j2, j2 < ALLOC_QUARANTINE_CAPACITY →
    j1 ≠ j2 → (s.quarantine.entries j1).active ≠ 0 →
    (s.quarantine.entries j2).active ≠ 0 →
    rangesDisjoint (s.quarantine.entries j1).startPage
      (s.quarantine.entries j1).pageCount
      (s.quarantine.entries j2).startPage (s.quarantine.entries j2).pageCount) ∧
  s.freePagesCount + s.bitmapInUse.popcount = s.totalPages ∧
  QInv s.quarantine

/-! ### Behaviour of the quarantine loops -/

theorem countBelow_eq_zero {p : Nat → Bool} {n : Nat}
    (h : ∀ i, i < n → p i = false) : countBelow p n = 0 := by
  induction n with
  | zero => rfl
  | succ n ih =>
    simp only [countBelow, h n (Nat.lt_succ_self n)]
    simp [ih fun i hi => h i (Nat.lt_succ_of_lt hi)]

theorem findOldestGo_spec (e : Nat → AllocQuarantineEntry) :
    ∀ fuel i best minSeq,
      ALLOC_QUARANTINE_CAPACITY ≤ i + fuel →
      (∀ k, k < i → (e k).active ≠ 0 → minSeq ≤ (e k).freeSequence) →
      (match best with
       | none => minSeq = UINT32_MAX
       | some j => j < ALLOC_QUARANTINE_CAPACITY ∧ (e j).active ≠ 0 ∧
           (e j).freeSequence = minSeq) →
      (match findOldestGo e fuel i best minSeq with
       | some j => j < ALLOC_QUARANTINE_CAPACITY ∧ (e j).active ≠ 0 ∧
           ∀ k, k < ALLOC_QUARANTINE_CAPACITY → (e k).active ≠ 0 →
             (e j).freeSequence ≤ (e k).freeSequence
       | none => ∀ k, k < ALLOC_QUARANTINE_CAPACITY → (e k).active ≠ 0 →
           UINT32_MAX ≤ (e k).freeSequence) := by
  intro fuel
  induction fuel with
  | zero =>
    intro i best minSeq hfuel hscan hbest
    simp only [findOldestGo]
    match best, hbest with
    | none, hbest =>
      intro k hk ha
      subst hbest
      exact hscan k (by omega) ha
    | some j, hbest =>
      obtain ⟨hj1, hj2, hj3⟩ := hbest
      refine ⟨hj1, hj2, ?_⟩
      intro k hk ha
      rw [hj3]
      exact hscan k (by omega) ha
  | succ fuel ih =>
    intro i best minSeq hfuel hscan hbest
    rw [findOldestGo]
    by_cases hi : i < ALLOC_QUARANTINE_CAPACITY
    · rw [if_pos hi]
      by_cases hsel : (e i).active ≠ 0 ∧ (e i).freeSequence < minSeq
      · rw [if_pos hsel]
        refine ih (i + 1) (some i) (e i).freeSequence (by omega) ?_ ⟨hi, hsel.1, rfl⟩
        intro k hk ha
        rcases Nat.lt_succ_iff_lt_or_eq.mp hk with hk' | hk'
        · exact Nat.le_trans (Nat.le_of_lt hsel.2) (hscan k hk' ha)
        · subst hk'; exact Nat.le_refl _
      · rw [if_neg hsel]
        refine ih (i + 1) best minSeq (by omega) ?_ hbest
        intro k hk ha
        rcases Nat.lt_succ_iff_lt_or_eq.mp hk with hk' | hk'
        · exact hscan k hk' ha
        · subst hk'
          push_neg at hsel
          exact hsel ha
    · rw [if_neg hi]
      match best, hbest with
      | none, hbest =>
        intro k hk ha
        subst hbest
        exact hscan k (by omega) ha
      | some j, hbest =>
        obtain ⟨hj1, hj2, hj3⟩ := hbest
        refine ⟨hj1, hj2, ?_⟩
        intro k hk ha
        rw [hj3]
        exact hscan k (by omega) ha

theorem findFreeSlotGo_spec (e : Nat → AllocQuarantineEntry) :
    ∀ fuel i, ALLOC_QUARANTINE_CAPACITY ≤ i + fuel →
      (match findFreeSlotGo e fuel i with
       | some j => i ≤ j ∧ j < ALLOC_QUARANTINE_CAPACITY ∧ (e j).active = 0 ∧
           ∀ k, i ≤ k → k < j → (e k).active ≠ 0
       | none => ∀ k, i ≤ k → k < ALLOC_QUARANTINE_CAPACITY → (e k).active ≠ 0) := by
  intro fuel
  induction fuel with
  | zero =>
    intro i hfuel
    show (∀ k, i ≤ k → k < ALLOC_QUARANTINE_CAPACITY → (e k).active ≠ 0)
    intro k hk1 hk2
    omega
  | succ fuel ih =>
    intro i hfuel
    rw [findFreeSlotGo]
    by_cases hi : i < ALLOC_QUARANTINE_CAPACITY
    · rw [if_pos hi]
      by_cases ha : (e i).active = 0
      · rw [if_pos ha]
        exact ⟨Nat.le_refl i, hi, ha, fun k hk1 hk2 => by omega⟩
      · rw [if_neg ha]
        have := ih (i + 1) (by omega)
        match hres : findFreeSlotGo e fuel (i + 1) with
        | some j =>
          rw [hres] at this
          obtain ⟨h1, h2, h3, h4⟩ := this
          refine ⟨by omega, h2, h3, ?_⟩
          intro k hk1 hk2
          rcases Nat.eq_or_lt_of_le hk1 with hk' | hk'
          · subst hk'; exact ha
          · exact h4 k (by omega) hk2
        | none =>
          rw [hres] at this
          intro k hk1 hk2
          rcases Nat.eq_or_lt_of_le hk1 with hk' | hk'
          · subst hk'; exact ha
          · exact this k (by omega) hk2
    · rw [if_neg hi]
      intro k hk1 hk2
      omega

/-- `QuarantineTable::add` on a table that is not full: no eviction, the new
region goes to the first inactive slot with `freeSequence = nextSequence`. -/
theorem add_not_full (q : QuarantineTable) (sp pc rs zi : Nat)
    (hq : QInv q) (hnf : q.activeCount < ALLOC_QUARANTINE_CAPACITY) :
    ∃ sIdx, sIdx < ALLOC_QUARANTINE_CAPACITY ∧ (q.entries sIdx).active = 0 ∧
      (q.add sp pc rs zi).1 = (false, none) ∧
      (q.add sp pc rs zi).2.entries sIdx = mkQuarEntry sp pc rs zi q.nextSequence ∧
      (∀ j, j ≠ sIdx → (q.add sp pc rs zi).2.entries j = q.entries j) ∧
      (q.add sp pc rs zi).2.nextSequence = (q.nextSequence + 1) % U32 ∧
      (q.add sp pc rs zi).2.activeCount = q.activeCount + 1 := by
  have hstep : ¬ (ALLOC_QUARANTINE_CAPACITY ≤ q.activeCount) := by omega
  have hslot := findFreeSlotGo_spec q.entries ALLOC_QUARANTINE_CAPACITY 0 (by omega)
  match hres : findFreeSlotGo q.entries ALLOC_QUARANTINE_CAPACITY 0 with
  | some sIdx =>
    rw [hres] at hslot
    obtain ⟨h1, h2, h3, h4⟩ := hslot
    refine ⟨sIdx, h2, h3, ?_, ?_, ?_, ?_, ?_⟩
    · simp [QuarantineTable.add, hstep, hres]
    · simp [QuarantineTable.add, hstep, hres]
    · intro j hj
      simp [QuarantineTable.add, hstep, hres, hj]
    · simp [QuarantineTable.add, hstep, hres]
    · simp [QuarantineTable.add, hstep, hres]
  | none =>
    rw [hres] at hslot
    have hge : ALLOC_QUARANTINE_CAPACITY ≤ q.countActive := by
      unfold QuarantineTable.countActive
      refine countBelow_ge_of_range (s := 0) (by omega) ?_
      intro k hk
      have := hslot (0 + k) (by omega) (by omega)
      simpa using this
    have := hq.1
    omega

/-- `QuarantineTable::add` on a full table: the active entry with the least
`freeSequence` is reported evicted and its slot receives the new region. -/
theorem add_full (q : QuarantineTable) (sp pc rs zi : Nat)
    (hq : QInv q) (hf : ALLOC_QUARANTINE_CAPACITY ≤ q.activeCount) :
    ∃ oIdx, oIdx < ALLOC_QUARANTINE_CAPACITY ∧ (q.entries oIdx).active ≠ 0 ∧
      (∀ k, k < ALLOC_QUARANTINE_CAPACITY → (q.entries k).active ≠ 0 →
        (q.entries oIdx).freeSequence ≤ (q.entries k).freeSequence) ∧
      (q.add sp pc rs zi).1 = (true, some (q.entries oIdx)) ∧
      (q.add sp pc rs zi).2.entries oIdx = mkQuarEntry sp pc rs zi q.nextSequence ∧
      (∀ j, j ≠ oIdx → (q.add sp pc rs zi).2.entries j = q.entries j) ∧
      (q.add sp pc rs zi).2.nextSequence = (q.nextSequence + 1) % U32 ∧
      (q.add sp pc rs zi).2.activeCount = q.activeCount := by
  obtain ⟨hcnt, hdist, hseq, hn32⟩ := hq
  have hca : q.countActive ≤ ALLOC_QUARANTINE_CAPACITY :=
    countBelow_le _ _
  have hceq : q.countActive = ALLOC_QUARANTINE_CAPACITY := by omega
  have hall : ∀ k, k < ALLOC_QUARANTINE_CAPACITY → (q.entries k).active ≠ 0 := by
    intro k hk
    have := countBelow_all_of_eq hceq k hk
    simpa using this
  have hM : UINT32_MAX = U32 - 1 := rfl
  have hold := findOldestGo_spec q.entries ALLOC_QUARANTINE_CAPACITY 0 none UINT32_MAX
    (by omega) (by intro k hk h; exact absurd hk (by omega)) rfl
  match hres : findOldestGo q.entries ALLOC_QUARANTINE_CAPACITY 0 none UINT32_MAX with
  | none =>
    rw [hres] at hold
    have hcap0 : 0 < ALLOC_QUARANTINE_CAPACITY := by decide
    have h0 := hold 0 hcap0 (hall 0 hcap0)
    have hlt := hseq 0 hcap0 (hall 0 hcap0)
    omega
  | some oIdx =>
    rw [hres] at hold
    obtain ⟨ho1, ho2, ho3⟩ := hold
    have hfo : q.findOldest = some oIdx := hres
    have hslot := findFreeSlotGo_spec
      (fun j => if j = oIdx then { q.entries oIdx with active := 0 } else q.entries j)
      ALLOC_QUARANTINE_CAPACITY 0 (by omega)
    match hres2 : findFreeSlotGo
        (fun j => if j = oIdx then { q.entries oIdx with active := 0 } else q.entries j)
        ALLOC_QUARANTINE_CAPACITY 0 with
    | none =>
      rw [hres2] at hslot
      have := hslot oIdx (by omega) ho1
      simp at this
    | some sIdx =>
      rw [hres2] at hslot
      obtain ⟨hs1, hs2, hs3, hs4⟩ := hslot
      have hsid : sIdx = oIdx := by
        by_contra hne
        simp [hne] at hs3
        exact hall sIdx hs2 hs3
      rw [hsid] at hres2
      refine ⟨oIdx, ho1, ho2, ho3, ?_, ?_, ?_, ?_, ?_⟩
      · simp [QuarantineTable.add, hf, hfo, hres2]
      · simp [QuarantineTable.add, hf, hfo, hres2]
      · intro j hj
        simp [QuarantineTable.add, hf, hfo, hres2, hj]
      · simp [QuarantineTable.add, hf, hfo, hres2]
      · simp [QuarantineTable.add, hf, hfo, hres2]
        omega

theorem QInv_init : QInv QuarantineTable.init := by decide

/-- Core of `QInv` preservation: a table that differs from a well-formed `q`
only by one slot rewritten to the freshly sequenced entry, with
`nextSequence` bumped, stays well-formed as soon as its `activeCount`
matches its active-entry count. -/
theorem QInv_update_core (q q' : QuarantineTable) (idx sp pc rs zi : Nat)
    (hq : QInv q) (hw : q.nextSequence + 1 < U32)
    (hidx : idx < ALLOC_QUARANTINE_CAPACITY)
    (hnew : q'.entries idx = mkQuarEntry sp pc rs zi q.nextSequence)
    (hold : ∀ j, j ≠ idx → q'.entries j = q.entries j)
    (hns : q'.nextSequence = (q.nextSequence + 1) % U32)
    (hcc : q'.activeCount = q'.countActive) : QInv q' := by
  obtain ⟨hcnt, hdist, hseq, hn32⟩ := hq
  have hns' : q'.nextSequence = q.nextSequence + 1 := by
    rw [hns, Nat.mod_eq_of_lt hw]
  refine ⟨hcc, ?_, ?_, ?_⟩
  · intro i hi j hj hij hai haj
    by_cases hi' : i = idx
    · have hj' : j ≠ idx := by omega
      rw [hold j hj'] at haj
      rw [hi', hnew, hold j hj']
      have := hseq j hj haj
      simp [mkQuarEntry]
      omega
    · by_cases hj' : j = idx
      · rw [hold i hi'] at hai
        rw [hj', hnew, hold i hi']
        have := hseq i hi hai
        simp [mkQuarEntry]
        omega
      · rw [hold i hi'] at hai
        rw [hold j hj'] at haj
        rw [hold i hi', hold j hj']
        exact hdist i hi j hj hij hai haj
  · intro i hi hai
    by_cases hi' : i = idx
    · rw [hi', hnew, hns']
      simp [mkQuarEntry]
    · rw [hold i hi'] at hai
      rw [hold i hi', hns']
      have := hseq i hi hai
      omega
  · rw [hns]
    exact Nat.mod_lt _ (by norm_num [U32])

/-- `QuarantineTable::add` preserves well-formedness as long as
`nextSequence` does not overflow at this step (the spec treats that overflow
as unreachable). -/
theorem QInv_add (q : QuarantineTable) (sp pc rs zi : Nat)
    (hq : QInv q) (hw : q.nextSequence + 1 < U32) :
    QInv (q.add sp pc rs zi).2 := by
  by_cases hfull : ALLOC_QUARANTINE_CAPACITY ≤ q.activeCount
  · obtain ⟨oIdx, ho1, ho2, ho3, hr1, he1, he2, hns, hac⟩ :=
      add_full q sp pc rs zi hq hfull
    refine QInv_update_core q _ oIdx sp pc rs zi hq hw ho1 he1 he2 hns ?_
    rw [hac, hq.1]
    unfold QuarantineTable.countActive
    apply countBelow_congr
    intro i hi
    by_cases hi' : i = oIdx
    · subst hi'
      rw [he1]
      simp [mkQuarEntry]
      simpa using ho2
    · rw [he2 i hi']
  · obtain ⟨sIdx, hs1, hs2, hr1, he1, he2, hns, hac⟩ :=
      add_not_full q sp pc rs zi hq (by omega)
    refine QInv_update_core q _ sIdx sp pc rs zi hq hw hs1 he1 he2 hns ?_
    rw [hac, hq.1]
    unfold QuarantineTable.countActive
    symm
    exact countBelow_update_true hs1 (fun j hj => by rw [he2 j hj])
      (by rw [he1]; simp [mkQuarEntry]) (by simp [hs2])

/-- `QuarantineTable::deactivate` of an active entry preserves
well-formedness. -/
theorem QInv_deactivate (q : QuarantineTable) (i : Nat)
    (hq : QInv q) (hi : i < ALLOC_QUARANTINE_CAPACITY)
    (ha : (q.entries i).active ≠ 0) : QInv (q.deactivate i) := by
  obtain ⟨hcnt, hdist, hseq, hn32⟩ := hq
  have hone : 1 ≤ q.countActive := by
    unfold QuarantineTable.countActive
    refine countBelow_ge_of_range (s := i) (c := 1) (by omega) ?_
    intro k hk
    have hk0 : k = 0 := by omega
    subst hk0
    simpa using ha
  have hcount : (q.deactivate i).countActive + 1 = q.countActive := by
    unfold QuarantineTable.countActive
    refine countBelow_update_false hi ?_ ?_ ?_
    · intro j hj
      simp [QuarantineTable.deactivate, hj]
    · simp [QuarantineTable.deactivate]
    · simpa using ha
  refine ⟨?_, ?_, ?_, ?_⟩
  · show q.activeCount - 1 = _
    omega
  · intro a hia b hjb hab haa hab2
    by_cases ha' : a = i
    · subst ha'
      simp [QuarantineTable.deactivate] at haa
    · by_cases hb' : b = i
      · subst hb'
        simp [QuarantineTable.deactivate] at hab2
      · simp only [QuarantineTable.deactivate] at haa hab2 ⊢
        simp only [if_neg ha'] at haa
        simp only [if_neg hb'] at hab2
        simp only [if_neg ha', if_neg hb']
        exact hdist a hia b hjb hab haa hab2
  · intro a hia haa
    by_cases ha' : a = i
    · subst ha'
      simp [QuarantineTable.deactivate] at haa
    · simp only [QuarantineTable.deactivate] at haa ⊢
      simp only [if_neg ha'] at haa ⊢
      exact hseq a hia haa
  · exact hn32

theorem byteAt_lt (m : Nat → Nat) (a : Nat) : byteAt m a < 256 :=
  Nat.mod_lt _ (by norm_num)

theorem load16_lt (m : Nat → Nat) (a : Nat) : load16 m a < U16 := by
  unfold load16 U16
  have h0 := byteAt_lt m a
  have h1 := byteAt_lt m (a + 1)
  have : byteAt m (a + 1) * 2 ^ 8 ≤ 255 * 2 ^ 8 :=
    Nat.mul_le_mul_right _ (by omega)
  omega

theorem parseRec_startPage_lt (m : Nat → Nat) (a : Nat) :
    (parseRec m a).startPage < U16 := load16_lt m (a + 8)

theorem parseRec_pageCount_lt (m : Nat → Nat) (a : Nat) :
    (parseRec m a).pageCount < U16 := load16_lt m (a + 10)

/-- `PageAllocator::init` establishes the zone invariant. -/
theorem Inv_init (start size zone : Nat) : Inv (PageAllocator.init start size zone) := by
  refine ⟨rfl, rfl, ?_, ?_, ?_, ?_, QInv_init⟩
  · intro i hi ht
    simp [PageAllocator.init, PageBitmap.init, PageBitmap.test] at ht
  · intro j hj ha
    simp [PageAllocator.init, QuarantineTable.init, emptyEntry] at ha
  · intro j1 h1 j2 h2 hne ha
    simp [PageAllocator.init, QuarantineTable.init, emptyEntry] at ha
  · have hz : (PageBitmap.init (size / ALLOC_PAGE_SIZE % U16)).popcount = 0 := by
      unfold PageBitmap.popcount
      apply countBelow_eq_zero
      intro i hi
      simp [PageBitmap.init, PageBitmap.test]
    show size / ALLOC_PAGE_SIZE % U16 +
        (PageBitmap.init (size / ALLOC_PAGE_SIZE % U16)).popcount =
      size / ALLOC_PAGE_SIZE % U16
    rw [hz]
    omega

/-- The state change a successful `allocate` performs on the bitmaps and
counters preserves the invariant (`SP`/`PG` is the free run found). -/
theorem Inv_alloc_update (s s' : PageAllocator) (SP PG : Nat) (h : Inv s)
    (hI : s'.bitmapInUse = s.bitmapInUse.setRange SP PG)
    (hA : s'.bitmapAllocated = s.bitmapAllocated.setRange SP PG)
    (hQ : s'.quarantine = s.quarantine)
    (hN : s'.totalPages = s.totalPages)
    (hF : s'.freePagesCount = s.freePagesCount - PG)
    (hfb : SP + PG ≤ s.bitmapInUse.pageCount)
    (hfz : ∀ k, k < PG → s.bitmapInUse.test (SP + k) = false)
    (hpg : PG ≤ s.freePagesCount) : Inv s' := by
  obtain ⟨hcap1, hcap2, hsub, hquar, hdisj, hacc, hqinv⟩ := h
  refine ⟨?_, ?_, ?_, ?_, ?_, ?_, ?_⟩
  · rw [hI, hN, PageBitmap.pageCount_setRange, hcap1]
  · rw [hA, hN, PageBitmap.pageCount_setRange, hcap2]
  · intro i hi ht
    rw [hN] at hi
    rw [hA, PageBitmap.test_setRange] at ht
    rw [hI, PageBitmap.test_setRange]
    by_cases hin : SP ≤ i ∧ i < SP + PG
    · rw [if_pos hin]
    · rw [if_neg hin] at ht
      rw [if_neg hin]
      exact hsub i hi ht
  · intro j hj ha
    rw [hQ] at ha ⊢
    obtain ⟨hqb, hqp⟩ := hquar j hj ha
    refine ⟨by rw [hN]; exact hqb, ?_⟩
    intro k hk
    obtain ⟨hik, hak⟩ := hqp k hk
    constructor
    · rw [hI, PageBitmap.test_setRange]
      by_cases hin : SP ≤ (s.quarantine.entries j).startPage + k ∧
          (s.quarantine.entries j).startPage + k < SP + PG
      · rw [if_pos hin]
      · rw [if_neg hin]; exact hik
    · rw [hA, PageBitmap.test_setRange]
      by_cases hin : SP ≤ (s.quarantine.entries j).startPage + k ∧
          (s.quarantine.entries j).startPage + k < SP + PG
      · exfalso
        have hko : (s.quarantine.entries j).startPage + k - SP < PG := by omega
        have hz := hfz _ hko
        rw [show SP + ((s.quarantine.entries j).startPage + k - SP) =
            (s.quarantine.entries j).startPage + k by omega] at hz
        rw [hik] at hz
        simp at hz
      · rw [if_neg hin]; exact hak
  · intro j1 h1 j2 h2 hne ha1 ha2
    rw [hQ] at ha1 ha2 ⊢
    exact hdisj j1 h1 j2 h2 hne ha1 ha2
  · rw [hI, hN, hF, PageBitmap.popcount_setRange s.bitmapInUse hfb hfz]
    omega
  · rw [hQ]; exact hqinv

/-- `PageAllocator::allocate` preserves the zone invariant. -/
theorem Inv_allocate (s : PageAllocator) (mem : Nat → Nat) (rs : Nat)
    (h : Inv s) : Inv (s.allocate mem rs).2.1 := by
  unfold PageAllocator.allocate
  split
  · exact h
  · dsimp only
    split
    · exact h
    · next h2 =>
      split
      · exact h
      · next h3 =>
        have heq : s.bitmapInUse.findFreeRun (pagesNeeded rs) =
            Int.ofNat (s.bitmapInUse.findFreeRun (pagesNeeded rs)).toNat := by
          rcases hval : s.bitmapInUse.findFreeRun (pagesNeeded rs) with n | n
          · rfl
          · rw [hval] at h3
            exact absurd (Int.negSucc_lt_zero n) h3
        obtain ⟨hfb, hfz⟩ := PageBitmap.findFreeRun_sound s.bitmapInUse
          (pagesNeeded rs) _ heq
        exact Inv_alloc_update s _
          (s.bitmapInUse.findFreeRun (pagesNeeded rs)).toNat (pagesNeeded rs)
          h rfl rfl rfl rfl rfl hfb hfz (by omega)

/-- The state change `deallocate` performs when the quarantine was not full:
the freed block `[sp, sp+pc)` becomes a quarantine entry in slot `sIdx`,
its `allocated` bits are cleared, `inUse` and the free-page counter stay. -/
theorem Inv_dealloc_noevict (s s' : PageAllocator) (sp pc rs zi sIdx : Nat)
    (h : Inv s)
    (hs1 : sIdx < ALLOC_QUARANTINE_CAPACITY)
    (hq' : QInv s'.quarantine)
    (hEn : s'.quarantine.entries sIdx =
      mkQuarEntry sp pc rs zi s.quarantine.nextSequence)
    (hEo : ∀ j, j ≠ sIdx → s'.quarantine.entries j = s.quarantine.entries j)
    (hI : s'.bitmapInUse = s.bitmapInUse)
    (hA : s'.bitmapAllocated = s.bitmapAllocated.clearRange sp pc)
    (hN : s'.totalPages = s.totalPages)
    (hF : s'.freePagesCount = s.freePagesCount)
    (hb : sp + pc ≤ s.totalPages) (hsp16 : sp < U16) (hpc16 : pc < U16)
    (hlive : ∀ k, k < pc → s.bitmapAllocated.test (sp + k) = true) : Inv s' := by
  obtain ⟨hcap1, hcap2, hsub, hquar, hdisj, hacc, hqinv⟩ := h
  have hspr : sp % U16 = sp := Nat.mod_eq_of_lt hsp16
  have hpcr : pc % U16 = pc := Nat.mod_eq_of_lt hpc16
  refine ⟨?_, ?_, ?_, ?_, ?_, ?_, hq'⟩
  · rw [hI, hN, hcap1]
  · rw [hA, hN, PageBitmap.pageCount_clearRange, hcap2]
  · intro i hi ht
    rw [hN] at hi
    rw [hA, PageBitmap.test_clearRange] at ht
    rw [hI]
    by_cases hin : sp ≤ i ∧ i < sp + pc
    · rw [if_pos hin] at ht
      exact absurd ht (by simp)
    · rw [if_neg hin] at ht
      exact hsub i hi ht
  · intro j hj ha
    by_cases hj' : j = sIdx
    · rw [hj', hEn]
      constructor
      · show (mkQuarEntry sp pc rs zi s.quarantine.nextSequence).startPage +
            (mkQuarEntry sp pc rs zi s.quarantine.nextSequence).pageCount ≤ s'.totalPages
        simp only [mkQuarEntry]
        rw [hspr, hpcr, hN]
        exact hb
      · intro k hk
        simp only [mkQuarEntry] at hk ⊢
        rw [hpcr] at hk
        rw [hspr]
        constructor
        · rw [hI]
          exact hsub (sp + k) (by omega) (hlive k hk)
        · rw [hA, PageBitmap.test_clearRange, if_pos (by omega)]
    · rw [hEo j hj'] at ha ⊢
      obtain ⟨hqb, hqp⟩ := hquar j hj ha
      refine ⟨by rw [hN]; exact hqb, ?_⟩
      intro k hk
      obtain ⟨hik, hak⟩ := hqp k hk
      constructor
      · rw [hI]; exact hik
      · rw [hA, PageBitmap.test_clearRange]
        by_cases hin : sp ≤ (s.quarantine.entries j).startPage + k ∧
            (s.quarantine.entries j).startPage + k < sp + pc
        · rw [if_pos hin]
        · rw [if_neg hin]; exact hak
  · intro j1 h1 j2 h2 hne ha1 ha2
    by_cases hj1 : j1 = sIdx
    · have hj2' : j2 ≠ sIdx := by omega
      intro x hx1 hx2 hx3
      obtain ⟨hx3a, hx3b⟩ := hx3
      rw [hj1, hEn] at hx1 hx2
      simp only [mkQuarEntry] at hx1 hx2
      rw [hspr, hpcr] at hx1
      rw [hspr] at hx2
      rw [hEo j2 hj2'] at hx3a hx3b ha2
      have h1x := hlive (x - sp) (by omega)
      rw [show sp + (x - sp) = x by omega] at h1x
      have hq2 := hquar j2 h2 ha2
      have h2x := (hq2.2 (x - (s.quarantine.entries j2).startPage) (by omega)).2
      rw [show (s.quarantine.entries j2).startPage +
          (x - (s.quarantine.entries j2).startPage) = x by omega] at h2x
      rw [h1x] at h2x
      exact absurd h2x (by simp)
    · by_cases hj2 : j2 = sIdx
      · intro x hx1 hx2 hx3
        obtain ⟨hx3a, hx3b⟩ := hx3
        rw [hj2, hEn] at hx3a hx3b
        simp only [mkQuarEntry] at hx3a hx3b
        rw [hspr] at hx3a
        rw [hspr, hpcr] at hx3b
        rw [hEo j1 hj1] at hx1 hx2 ha1
        have h1x := hlive (x - sp) (by omega)
        rw [show sp + (x - sp) = x by omega] at h1x
        have hq1 := hquar j1 h1 ha1
        have h2x := (hq1.2 (x - (s.quarantine.entries j1).startPage) (by omega)).2
        rw [show (s.quarantine.entries j1).startPage +
            (x - (s.quarantine.entries j1).startPage) = x by omega] at h2x
        rw [h1x] at h2x
        exact absurd h2x (by simp)
      · intro x hx1 hx2 hx3
        obtain ⟨hx3a, hx3b⟩ := hx3
        rw [hEo j1 hj1] at hx1 hx2 ha1
        rw [hEo j2 hj2] at hx3a hx3b ha2
        exact hdisj j1 h1 j2 h2 hne ha1 ha2 x hx1 hx2 ⟨hx3a, hx3b⟩
  · rw [hI, hN, hF]
    exact hacc

/-- The state change `deallocate` performs when the quarantine was full:
the oldest entry (slot `oIdx`) is evicted — its pages leave `inUse` and
return to the free counter — and the freed block `[sp, sp+pc)` takes its
slot. -/
theorem Inv_dealloc_evict (s s' : PageAllocator) (sp pc rs zi oIdx : Nat)
    (h : Inv s)
    (ho1 : oIdx < ALLOC_QUARANTINE_CAPACITY)
    (ho2 : (s.quarantine.entries oIdx).active ≠ 0)
    (hq' : QInv s'.quarantine)
    (hEn : s'.quarantine.entries oIdx =
      mkQuarEntry sp pc rs zi s.quarantine.nextSequence)
    (hEo : ∀ j, j ≠ oIdx → s'.quarantine.entries j = s.quarantine.entries j)
    (hI : s'.bitmapInUse = s.bitmapInUse.clearRange
      (s.quarantine.entries oIdx).startPage (s.quarantine.entries oIdx).pageCount)
    (hA : s'.bitmapAllocated = s.bitmapAllocated.clearRange sp pc)
    (hN : s'.totalPages = s.totalPages)
    (hF : s'.freePagesCount =
      s.freePagesCount + (s.quarantine.entries oIdx).pageCount)
    (hb : sp + pc ≤ s.totalPages) (hsp16 : sp < U16) (hpc16 : pc < U16)
    (hlive : ∀ k, k < pc → s.bitmapAllocated.test (sp + k) = true) : Inv s' := by
  obtain ⟨hcap1, hcap2, hsub, hquar, hdisj, hacc, hqinv⟩ := h
  have hspr : sp % U16 = sp := Nat.mod_eq_of_lt hsp16
  have hpcr : pc % U16 = pc := Nat.mod_eq_of_lt hpc16
  obtain ⟨hevb, hevp⟩ := hquar oIdx ho1 ho2
  refine ⟨?_, ?_, ?_, ?_, ?_, ?_, hq'⟩
  · rw [hI, hN, PageBitmap.pageCount_clearRange, hcap1]
  · rw [hA, hN, PageBitmap.pageCount_clearRange, hcap2]
  · intro i hi ht
    rw [hN] at hi
    rw [hA, PageBitmap.test_clearRange] at ht
    rw [hI, PageBitmap.test_clearRange]
    by_cases hin : sp ≤ i ∧ i < sp + pc
    · rw [if_pos hin] at ht
      exact absurd ht (by simp)
    · rw [if_neg hin] at ht
      by_cases hev : (s.quarantine.entries oIdx).startPage ≤ i ∧
          i < (s.quarantine.entries oIdx).startPage +
            (s.quarantine.entries oIdx).pageCount
      · exfalso
        have hx := (hevp (i - (s.quarantine.entries oIdx).startPage) (by omega)).2
        rw [show (s.quarantine.entries oIdx).startPage +
            (i - (s.quarantine.entries oIdx).startPage) = i by omega] at hx
        rw [ht] at hx
        exact absurd hx (by simp)
      · rw [if_neg hev]
        exact hsub i hi ht
  · intro j hj ha
    by_cases hj' : j = oIdx
    · rw [hj', hEn]
      constructor
      · show (mkQuarEntry sp pc rs zi s.quarantine.nextSequence).startPage +
            (mkQuarEntry sp pc rs zi s.quarantine.nextSequence).pageCount ≤
            s'.totalPages
        simp only [mkQuarEntry]
        rw [hspr, hpcr, hN]
        exact hb
      · intro k hk
        simp only [mkQuarEntry] at hk ⊢
        rw [hpcr] at hk
        rw [hspr]
        constructor
        · rw [hI, PageBitmap.test_clearRange]
          have hnotev : ¬((s.quarantine.entries oIdx).startPage ≤ sp + k ∧
              sp + k < (s.quarantine.entries oIdx).startPage +
                (s.quarantine.entries oIdx).pageCount) := by
            intro hcon
            have hx := (hevp (sp + k - (s.quarantine.entries oIdx).startPage)
              (by omega)).2
            rw [show (s.quarantine.entries oIdx).startPage +
                (sp + k - (s.quarantine.entries oIdx).startPage) = sp + k
                by omega] at hx
            rw [hlive k hk] at hx
            exact absurd hx (by simp)
          rw [if_neg hnotev]
          exact hsub (sp + k) (by omega) (hlive k hk)
        · rw [hA, PageBitmap.test_clearRange, if_pos (by omega)]
    · rw [hEo j hj'] at ha ⊢
      obtain ⟨hqb, hqp⟩ := hquar j hj ha
      refine ⟨by rw [hN]; exact hqb, ?_⟩
      intro k hk
      obtain ⟨hik, hak⟩ := hqp k hk
      constructor
      · rw [hI, PageBitmap.test_clearRange]
        have hdj := hdisj j hj oIdx ho1 hj' ha ho2
        have hnotev := hdj ((s.quarantine.entries j).startPage + k)
          (by omega) (by omega)
        rw [if_neg hnotev]
        exact hik
      · rw [hA, PageBitmap.test_clearRange]
        by_cases hin : sp ≤ (s.quarantine.entries j).startPage + k ∧
            (s.quarantine.entries j).startPage + k < sp + pc
        · rw [if_pos hin]
        · rw [if_neg hin]; exact hak
  · intro j1 h1 j2 h2 hne ha1 ha2
    by_cases hj1 : j1 = oIdx
    · have hj2' : j2 ≠ oIdx := by omega
      intro x hx1 hx2 hx3
      obtain ⟨hx3a, hx3b⟩ := hx3
      rw [hj1, hEn] at hx1 hx2
      simp only [mkQuarEntry] at hx1 hx2
      rw [hspr, hpcr] at hx1
      rw [hspr] at hx2
      rw [hEo j2 hj2'] at hx3a hx3b ha2
      have h1x := hlive (x - sp) (by omega)
      rw [show sp + (x - sp) = x by omega] at h1x
      have hq2 := hquar j2 h2 ha2
      have h2x := (hq2.2 (x - (s.quarantine.entries j2).startPage) (by omega)).2
      rw [show (s.quarantine.entries j2).startPage +
          (x - (s.quarantine.entries j2).startPage) = x by omega] at h2x
      rw [h1x] at h2x
      exact absurd h2x (by simp)
    · by_cases hj2 : j2 = oIdx
      · intro x hx1 hx2 hx3
        obtain ⟨hx3a, hx3b⟩ := hx3
        rw [hj2, hEn] at hx3a hx3b
        simp only [mkQuarEntry] at hx3a hx3b
        rw [hspr] at hx3a
        rw [hspr, hpcr] at hx3b
        rw [hEo j1 hj1] at hx1 hx2 ha1
        have h1x := hlive (x - sp) (by omega)
        rw [show sp + (x - sp) = x by omega] at h1x
        have hq1 := hquar j1 h1 ha1
        have h2x := (hq1.2 (x - (s.quarantine.entries j1).startPage) (by omega)).2
        rw [show (s.quarantine.entries j1).startPage +
            (x - (s.quarantine.entries j1).startPage) = x by omega] at h2x
        rw [h1x] at h2x
        exact absurd h2x (by simp)
      · intro x hx1 hx2 hx3
        obtain ⟨hx3a, hx3b⟩ := hx3
        rw [hEo j1 hj1] at hx1 hx2 ha1
        rw [hEo j2 hj2] at hx3a hx3b ha2
        exact hdisj j1 h1 j2 h2 hne ha1 ha2 x hx1 hx2 ⟨hx3a, hx3b⟩
  · rw [hI, hN, hF]
    have hpc2 : (s.quarantine.entries oIdx).startPage +
        (s.quarantine.entries oIdx).pageCount ≤ s.bitmapInUse.pageCount := by
      rw [hcap1]; exact hevb
    have hcl := PageBitmap.popcount_clearRange s.bitmapInUse hpc2
      (fun k hk => (hevp k hk).1)
    omega

/-- `PageAllocator::deallocate` preserves the zone invariant.  The
hypotheses are exactly what the `ALLOC_ASSERT`s of the C code check plus
liveness of the freed block: the header parsed at `userPtr - H` describes a
range inside the zone whose pages are currently `allocated`, and the free
sequence counter does not overflow at this step. -/
theorem Inv_deallocate (s : PageAllocator) (mem : Nat → Nat) (ptr : Nat)
    (h : Inv s)
    (hb : (parseRec mem (ptr - ALLOC_HEADER_SIZE)).startPage +
      (parseRec mem (ptr - ALLOC_HEADER_SIZE)).pageCount ≤ s.totalPages)
    (hlive : ∀ k, k < (parseRec mem (ptr - ALLOC_HEADER_SIZE)).pageCount →
      s.bitmapAllocated.test
        ((parseRec mem (ptr - ALLOC_HEADER_SIZE)).startPage + k) = true)
    (hwrap : s.quarantine.nextSequence + 1 < U32) :
    Inv (s.deallocate mem ptr).1 := by
  unfold PageAllocator.deallocate
  split
  · exact h
  · dsimp only
    by_cases hfull : ALLOC_QUARANTINE_CAPACITY ≤ s.quarantine.activeCount
    · obtain ⟨oIdx, ho1, ho2, ho3, hr1, he1, he2, hns, hac⟩ :=
        add_full s.quarantine
          (parseRec mem (ptr - ALLOC_HEADER_SIZE)).startPage
          (parseRec mem (ptr - ALLOC_HEADER_SIZE)).pageCount
          (parseRec mem (ptr - ALLOC_HEADER_SIZE)).requestedSize s.zoneIndex
          h.2.2.2.2.2.2 hfull
      rw [hr1]
      exact Inv_dealloc_evict s _
        (parseRec mem (ptr - ALLOC_HEADER_SIZE)).startPage
        (parseRec mem (ptr - ALLOC_HEADER_SIZE)).pageCount
        (parseRec mem (ptr - ALLOC_HEADER_SIZE)).requestedSize
        s.zoneIndex oIdx h ho1 ho2
        (QInv_add s.quarantine _ _ _ _ h.2.2.2.2.2.2 hwrap)
        he1 he2 rfl rfl rfl rfl hb (parseRec_startPage_lt _ _)
        (parseRec_pageCount_lt _ _) hlive
    · obtain ⟨sIdx, hs1, hs2, hr1, he1, he2, hns, hac⟩ :=
        add_not_full s.quarantine
          (parseRec mem (ptr - ALLOC_HEADER_SIZE)).startPage
          (parseRec mem (ptr - ALLOC_HEADER_SIZE)).pageCount
          (parseRec mem (ptr - ALLOC_HEADER_SIZE)).requestedSize s.zoneIndex
          h.2.2.2.2.2.2 (by omega)
      rw [hr1]
      exact Inv_dealloc_noevict s _
        (parseRec mem (ptr - ALLOC_HEADER_SIZE)).startPage
        (parseRec mem (ptr - ALLOC_HEADER_SIZE)).pageCount
        (parseRec mem (ptr - ALLOC_HEADER_SIZE)).requestedSize
        s.zoneIndex sIdx h hs1
        (QInv_add s.quarantine _ _ _ _ h.2.2.2.2.2.2 hwrap)
        he1 he2 rfl rfl rfl rfl hb (parseRec_startPage_lt _ _)
        (parseRec_pageCount_lt _ _) hlive

/-- `PageAllocator::calloc` preserves the zone invariant (its only state
change beyond `allocate` is the `memset` of the returned payload). -/
theorem Inv_calloc (s : PageAllocator) (mem : Nat → Nat) (num elemSize : Nat)
    (h : Inv s) : Inv (s.calloc mem num elemSize).2.1 := by
  unfold PageAllocator.calloc
  split
  · exact h
  · dsimp only
    have := Inv_allocate s mem (num * elemSize % SIZE_T_MOD) h
    split
    · exact this
    · exact this

/-! ### Derived spec-level properties and concrete test states -/

/-- The page count required by the spec's formula,
`ceil((H + requestedSize + F) / P)`, computed without any truncation.  This
definition follows the spec's words (not the code) and exists solely to be
compared against `pagesNeeded`. -/
def pagesNeededSpec (requestedSize : Nat) : Nat :=
  (ALLOC_HEADER_SIZE + requestedSize + ALLOC_FOOTER_SIZE + ALLOC_PAGE_SIZE - 1) /
    ALLOC_PAGE_SIZE

/-- `allocated ⊆ inUse` and every quarantined page is marked in `inUse` and
clear in `allocated` (spec §3). -/
def bitmapsConsistent (s : PageAllocator) : Prop :=
  (∀ i, i < s.totalPages → s.bitmapAllocated.test i = true →
    s.bitmapInUse.test i = true) ∧
  (∀ j, j < ALLOC_QUARANTINE_CAPACITY → (s.quarantine.entries j).active ≠ 0 →
    ∀ k, k < (s.quarantine.entries j).pageCount →
      s.bitmapInUse.test ((s.quarantine.entries j).startPage + k) = true ∧
      s.bitmapAllocated.test ((s.quarantine.entries j).startPage + k) = false)

/-- `freePagesCount = N − popcount(inUse)` (spec §3). -/
def freeCountConsistent (s : PageAllocator) : Prop :=
  s.bitmapInUse.popcount ≤ s.totalPages ∧
  s.freePagesCount = s.totalPages - s.bitmapInUse.popcount

/-- The all-zero byte memory used by the concrete witnesses. -/
def wMem0 : Nat → Nat := fun _ => 0

/-- A 4-page zone at base 8192. -/
def wZone : PageAllocator := PageAllocator.init 8192 4096 0

/-- A 6-page zone at base 16384. -/
def wZone6 : PageAllocator := PageAllocator.init 16384 6144 1

/-- A 2-page zone at base 16384. -/
def wZone8 : PageAllocator := PageAllocator.init 16384 2048 0

/-- A 16-page zone at base 8192 (the `pagesNeeded`-truncation scenario). -/
def cZone : PageAllocator := PageAllocator.init 8192 16384 0

/-- A 1-page fast zone at base 4096. -/
def cZoneA : PageAllocator := PageAllocator.init 4096 1024 0

/-- A 16-page slow zone at base 65536. -/
def cZoneB : PageAllocator := PageAllocator.init 65536 16384 1

/-- A two-zone router whose selector is `HEAP_ZONE_FAST`. -/
def cRouter : AllocatorCustomCpp :=
  { zones := fun i => if i = 0 then cZoneA else cZoneB,
    activeZones := 2, currentZone := HeapZone.fast, initialized := true }

/-- A quarantine table with three active entries (`freeSequence` 1, 2, 3). -/
def wQ3 : QuarantineTable :=
  { entries := fun i =>
      if i < 3 then
        { startPage := 4 * i, pageCount := 1, requestedSize := 8,
          freeSequence := i + 1, mpuRegion := -1, zoneIndex := 0, active := 1,
          reserved := 0 }
      else emptyEntry,
    nextSequence := 4, activeCount := 3 }

/-- A full quarantine table: 32 active entries, `freeSequence` 1..32. -/
def wQFull : QuarantineTable :=
  { entries := fun i =>
      if i < 32 then
        { startPage := i, pageCount := 1, requestedSize := 4,
          freeSequence := i + 1, mpuRegion := -1, zoneIndex := 0, active := 1,
          reserved := 0 }
      else emptyEntry,
    nextSequence := 33, activeCount := 32 }

/-! ### Helper lemmas shared by the claim theorems -/

theorem allocate_zero_none (s : PageAllocator) (mem : Nat → Nat) :
    (s.allocate mem 0).1 = none := by
  unfold PageAllocator.allocate
  rw [if_pos (Or.inr rfl)]

theorem allocate_none_unchanged (s : PageAllocator) (mem : Nat → Nat) (rs : Nat) :
    (s.allocate mem rs).1 = none → (s.allocate mem rs).2 = (s, mem) := by
  unfold PageAllocator.allocate
  split
  · intro _; rfl
  · dsimp only
    split
    · intro _; rfl
    · split
      · intro _; rfl
      · intro hcon
        exact absurd hcon (by simp)

theorem calloc_none_unchanged (s : PageAllocator) (mem : Nat → Nat) (num es : Nat) :
    (s.calloc mem num es).1 = none → (s.calloc mem num es).2 = (s, mem) := by
  unfold PageAllocator.calloc
  split
  · intro _; rfl
  · dsimp only
    rcases heq : (s.allocate mem (num * es % SIZE_T_MOD)).1 with _ | p
    · intro _
      exact allocate_none_unchanged s mem _ heq
    · intro hcon
      simp at hcon

theorem Inv_bitmapsConsistent (s : PageAllocator) (h : Inv s) :
    bitmapsConsistent s := by
  obtain ⟨_, _, hsub, hquar, _, _, _⟩ := h
  exact ⟨hsub, fun j hj ha => (hquar j hj ha).2⟩

theorem Inv_freeCountConsistent (s : PageAllocator) (h : Inv s) :
    freeCountConsistent s := by
  obtain ⟨_, _, _, _, _, hacc, _⟩ := h
  exact ⟨by omega, by omega⟩

/-! ### The claims -/

/-- Claim C1: REFUTED (code bug).  With the selector `HEAP_ZONE_FAST` the
route is primary = secondary = 0 with `trySecondary = false`; the 1-page
fast zone cannot serve a 2000-byte request (its own `allocate` answers
NULL), so the claim requires the router to return NULL — yet
`cRouter.allocate` returns the pointer 65568, which lies in the slow zone
based at 65536.  The final loop of `allocateWithRoute` skips the secondary
zone only when `trySecondary` is set, so FAST (and analogously SLOW) falls
back to the other zone. -/
theorem claim_C1 :
    (resolveRoute HeapZone.fast).primary = 0 ∧
    (resolveRoute HeapZone.fast).secondary = 0 ∧
    (resolveRoute HeapZone.fast).trySecondary = false ∧
    ((cRouter.zones 0).allocate wMem0 2000).1 = none ∧
    (cRouter.allocate wMem0 2000).1 = some 65568 ∧
    cZoneB.baseAddress = 65536 := by decide

/-- Claim C2: REFUTED (code bug).  For `requestedSize = 67108864` the spec's
page count `ceil((H + s + F) / P)` is 65537; the 16-page zone `cZone` has no
free run of that length (`findFreeRun` answers −1), so the claim requires
NULL — but `pagesNeeded` truncates 65537 to `uint16_t`, giving 1, and
`allocate` succeeds with the first page's payload address 8224. -/
theorem claim_C2 :
    pagesNeededSpec 67108864 = 65537 ∧
    cZone.totalPages = 16 ∧
    cZone.bitmapInUse.findFreeRun (pagesNeededSpec 67108864) = -1 ∧
    pagesNeeded 67108864 = 1 ∧
    (cZone.allocate wMem0 67108864).1 = some 8224 := by decide

/-- Claim C3: on a full well-formed table, `QuarantineTable::add` reports as
evicted exactly the active entry whose `freeSequence` is strictly smallest
among all active entries. -/
theorem claim_C3 (q : QuarantineTable) (sp pc rs zi : Nat)
    (hq : QInv q) (hf : ALLOC_QUARANTINE_CAPACITY ≤ q.activeCount) :
    ∃ oIdx, oIdx < ALLOC_QUARANTINE_CAPACITY ∧ (q.entries oIdx).active ≠ 0 ∧
      (q.add sp pc rs zi).1 = (true, some (q.entries oIdx)) ∧
      ∀ k, k < ALLOC_QUARANTINE_CAPACITY → (q.entries k).active ≠ 0 → k ≠ oIdx →
        (q.entries oIdx).freeSequence < (q.entries k).freeSequence := by
  obtain ⟨oIdx, ho1, ho2, ho3, hr1, he1, he2, hns, hac⟩ :=
    add_full q sp pc rs zi hq hf
  refine ⟨oIdx, ho1, ho2, hr1, ?_⟩
  intro k hk ha hne
  have hle := ho3 k hk ha
  have hne2 := hq.2.1 oIdx ho1 k hk (fun hcon => hne hcon.symm) ho2 ha
  omega

/-- Witness for C3: the full table `wQFull` (active sequences 1..32) evicts
the entry with `freeSequence = 1`. -/
theorem claim_C3_witness :
    QInv wQFull ∧ ALLOC_QUARANTINE_CAPACITY ≤ wQFull.activeCount ∧
    (∃ oIdx, oIdx < ALLOC_QUARANTINE_CAPACITY ∧
      (wQFull.entries oIdx).active ≠ 0 ∧
      (wQFull.add 7 1 64 0).1 = (true, some (wQFull.entries oIdx)) ∧
      ∀ k, k < ALLOC_QUARANTINE_CAPACITY → (wQFull.entries k).active ≠ 0 →
        k ≠ oIdx →
        (wQFull.entries oIdx).freeSequence < (wQFull.entries k).freeSequence) :=
  ⟨by decide, by decide, claim_C3 wQFull 7 1 64 0 (by decide) (by decide)⟩

/-- Claim C4: whenever `allocate` or `calloc` returns NULL, the zone state
(both bitmaps, quarantine, all counters) and the memory are exactly as
before. -/
theorem claim_C4 (s : PageAllocator) (mem : Nat → Nat) (rs num es : Nat)
    (h1 : (s.allocate mem rs).1 = none) (h2 : (s.calloc mem num es).1 = none) :
    (s.allocate mem rs).2 = (s, mem) ∧ (s.calloc mem num es).2 = (s, mem) :=
  ⟨allocate_none_unchanged s mem rs h1, calloc_none_unchanged s mem num es h2⟩

/-- Witness for C4: a zero-size `allocate` and an overflowing `calloc` on the
4-page zone both answer NULL and leave state and memory untouched. -/
theorem claim_C4_witness :
    (wZone.allocate wMem0 0).1 = none ∧
    (wZone.calloc wMem0 2 4294967295).1 = none ∧
    ((wZone.allocate wMem0 0).2 = (wZone, wMem0) ∧
     (wZone.calloc wMem0 2 4294967295).2 = (wZone, wMem0)) :=
  ⟨by decide, by decide,
   claim_C4 wZone wMem0 0 2 4294967295 (by decide) (by decide)⟩

/-- Claim C5: after `init`, `allocate`, `deallocate` (eviction included) and
`calloc` on a zone satisfying the invariant, `allocated` is a bit-wise
subset of `inUse` and every quarantined page has `inUse = 1` and
`allocated = 0`.  The `deallocate` hypotheses are the block-validity
conditions its release-build `ALLOC_ASSERT`s express. -/
theorem claim_C5 (start size zone : Nat) (s : PageAllocator) (mem : Nat → Nat)
    (rs ptr num es : Nat) (h : Inv s)
    (hb : (parseRec mem (ptr - ALLOC_HEADER_SIZE)).startPage +
      (parseRec mem (ptr - ALLOC_HEADER_SIZE)).pageCount ≤ s.totalPages)
    (hlive : ∀ k, k < (parseRec mem (ptr - ALLOC_HEADER_SIZE)).pageCount →
      s.bitmapAllocated.test
        ((parseRec mem (ptr - ALLOC_HEADER_SIZE)).startPage + k) = true)
    (hwrap : s.quarantine.nextSequence + 1 < U32) :
    bitmapsConsistent (PageAllocator.init start size zone) ∧
    bitmapsConsistent (s.allocate mem rs).2.1 ∧
    bitmapsConsistent (s.deallocate mem ptr).1 ∧
    bitmapsConsistent (s.calloc mem num es).2.1 :=
  ⟨Inv_bitmapsConsistent _ (Inv_init start size zone),
   Inv_bitmapsConsistent _ (Inv_allocate s mem rs h),
   Inv_bitmapsConsistent _ (Inv_deallocate s mem ptr h hb hlive hwrap),
   Inv_bitmapsConsistent _ (Inv_calloc s mem num es h)⟩

/-- Witness for C5 on the 4-page zone `wZone` with zeroed memory. -/
theorem claim_C5_witness :
    Inv wZone ∧
    ((parseRec wMem0 (32 - ALLOC_HEADER_SIZE)).startPage +
      (parseRec wMem0 (32 - ALLOC_HEADER_SIZE)).pageCount ≤ wZone.totalPages) ∧
    (∀ k, k < (parseRec wMem0 (32 - ALLOC_HEADER_SIZE)).pageCount →
      wZone.bitmapAllocated.test
        ((parseRec wMem0 (32 - ALLOC_HEADER_SIZE)).startPage + k) = true) ∧
    wZone.quarantine.nextSequence + 1 < U32 ∧
    (bitmapsConsistent (PageAllocator.init 8192 4096 0) ∧
     bitmapsConsistent (wZone.allocate wMem0 100).2.1 ∧
     bitmapsConsistent (wZone.deallocate wMem0 32).1 ∧
     bitmapsConsistent (wZone.calloc wMem0 1 8).2.1) :=
  ⟨Inv_init 8192 4096 0, by decide, by decide, by decide,
   claim_C5 8192 4096 0 wZone wMem0 100 32 1 8 (Inv_init 8192 4096 0)
     (by decide) (by decide) (by decide)⟩

/-- Claim C6: after `init`, `allocate`, `deallocate` (eviction included) and
`calloc` on a zone satisfying the invariant, `freePagesCount` equals the
zone's page count minus the number of set bits of `inUse` — quarantined
pages count as not free. -/
theorem claim_C6 (start size zone : Nat) (s : PageAllocator) (mem : Nat → Nat)
    (rs ptr num es : Nat) (h : Inv s)
    (hb : (parseRec mem (ptr - ALLOC_HEADER_SIZE)).startPage +
      (parseRec mem (ptr - ALLOC_HEADER_SIZE)).pageCount ≤ s.totalPages)
    (hlive : ∀ k, k < (parseRec mem (ptr - ALLOC_HEADER_SIZE)).pageCount →
      s.bitmapAllocated.test
        ((parseRec mem (ptr - ALLOC_HEADER_SIZE)).startPage + k) = true)
    (hwrap : s.quarantine.nextSequence + 1 < U32) :
    freeCountConsistent (PageAllocator.init start size zone) ∧
    freeCountConsistent (s.allocate mem rs).2.1 ∧
    freeCountConsistent (s.deallocate mem ptr).1 ∧
    freeCountConsistent (s.calloc mem num es).2.1 :=
  ⟨Inv_freeCountConsistent _ (Inv_init start size zone),
   Inv_freeCountConsistent _ (Inv_allocate s mem rs h),
   Inv_freeCountConsistent _ (Inv_deallocate s mem ptr h hb hlive hwrap),
   Inv_freeCountConsistent _ (Inv_calloc s mem num es h)⟩

/-- Witness for C6 on the 6-page zone `wZone6` with zeroed memory. -/
theorem claim_C6_witness :
    Inv wZone6 ∧
    ((parseRec wMem0 (64 - ALLOC_HEADER_SIZE)).startPage +
      (parseRec wMem0 (64 - ALLOC_HEADER_SIZE)).pageCount ≤ wZone6.totalPages) ∧
    (∀ k, k < (parseRec wMem0 (64 - ALLOC_HEADER_SIZE)).pageCount →
      wZone6.bitmapAllocated.test
        ((parseRec wMem0 (64 - ALLOC_HEADER_SIZE)).startPage + k) = true) ∧
    wZone6.quarantine.nextSequence + 1 < U32 ∧
    (freeCountConsistent (PageAllocator.init 16384 6144 1) ∧
     freeCountConsistent (wZone6.allocate wMem0 50).2.1 ∧
     freeCountConsistent (wZone6.deallocate wMem0 64).1 ∧
     freeCountConsistent (wZone6.calloc wMem0 2 8).2.1) :=
  ⟨Inv_init 16384 6144 1, by decide, by decide, by decide,
   claim_C6 16384 6144 1 wZone6 wMem0 50 64 2 8 (Inv_init 16384 6144 1)
     (by decide) (by decide) (by decide)⟩

/-- Claim C7: round-trip of the block guard — `writeHeader` validates as a
header, `writeFooter` as a footer, the two validate as a pair, and each
stored checksum is the XOR of the seven preceding 32-bit words of its
record. -/
theorem claim_C7 (requestedSize startPage pageCount zoneIndex sequenceNum : Nat) :
    validateHeader
      (writeHeader requestedSize startPage pageCount zoneIndex sequenceNum) = true ∧
    validateFooter
      (writeFooter requestedSize startPage pageCount zoneIndex sequenceNum) = true ∧
    validatePair
      (writeHeader requestedSize startPage pageCount zoneIndex sequenceNum)
      (writeFooter requestedSize startPage pageCount zoneIndex sequenceNum) = true ∧
    (writeHeader requestedSize startPage pageCount zoneIndex sequenceNum).checksum =
      ((recWords (writeHeader requestedSize startPage pageCount zoneIndex
        sequenceNum)).take 7).foldl (fun a b => a ^^^ b) 0 ∧
    (writeFooter requestedSize startPage pageCount zoneIndex sequenceNum).checksum =
      ((recWords (writeFooter requestedSize startPage pageCount zoneIndex
        sequenceNum)).take 7).foldl (fun a b => a ^^^ b) 0 := by
  refine ⟨?_, ?_, ?_, ?_, ?_⟩ <;>
    simp [validateHeader, validateFooter, validatePair, writeHeader, writeFooter,
      computeChecksum, recWords]

/-- Witness for C7 at one concrete argument tuple. -/
theorem claim_C7_witness :
    validateHeader (writeHeader 100 2 1 0 5) = true ∧
    validateFooter (writeFooter 100 2 1 0 5) = true ∧
    validatePair (writeHeader 100 2 1 0 5) (writeFooter 100 2 1 0 5) = true ∧
    (writeHeader 100 2 1 0 5).checksum =
      ((recWords (writeHeader 100 2 1 0 5)).take 7).foldl (fun a b => a ^^^ b) 0 ∧
    (writeFooter 100 2 1 0 5).checksum =
      ((recWords (writeFooter 100 2 1 0 5)).take 7).foldl (fun a b => a ^^^ b) 0 :=
  claim_C7 100 2 1 0 5

/-- Claim C8: `calloc` rejects the multiplication overflow
`num > 0 ∧ elemSize > SIZE_MAX / num` with NULL, and on success every byte
of the returned `num * elemSize`-byte region reads zero. -/
theorem claim_C8 (s : PageAllocator) (mem : Nat → Nat) (num es : Nat) :
    (0 < num ∧ SIZE_MAX / num < es → (s.calloc mem num es).1 = none) ∧
    (∀ p, (s.calloc mem num es).1 = some p →
      ∀ x, p ≤ x → x < p + num * es → byteAt (s.calloc mem num es).2.2 x = 0) := by
  constructor
  · intro hov
    unfold PageAllocator.calloc
    rw [if_pos hov]
  · intro p hp x hx1 hx2
    unfold PageAllocator.calloc at hp ⊢
    by_cases hov : 0 < num ∧ SIZE_MAX / num < es
    · rw [if_pos hov] at hp
      simp at hp
    · rw [if_neg hov] at hp ⊢
      have hng := hov
      dsimp only at hp ⊢
      rcases heq : (s.allocate mem (num * es % SIZE_T_MOD)).1 with _ | q
      · rw [heq] at hp
        simp at hp
      · rw [heq] at hp
        have hqp : q = p := by simpa using hp
        subst hqp
        have hnum0 : num ≠ 0 := by
          intro h0
          subst h0
          simp only [Nat.zero_mul, Nat.zero_mod] at heq
          rw [allocate_zero_none] at heq
          simp at heq
        have hes0 : es ≠ 0 := by
          intro h0
          subst h0
          simp only [Nat.mul_zero, Nat.zero_mod] at heq
          rw [allocate_zero_none] at heq
          simp at heq
        push_neg at hng
        have hle : es ≤ SIZE_MAX / num := hng (by omega)
        have hmul : num * es ≤ SIZE_MAX := by
          have := (Nat.le_div_iff_mul_le (by omega : 0 < num)).mp hle
          calc num * es = es * num := Nat.mul_comm num es
            _ ≤ SIZE_MAX := this
        have hmod : num * es % SIZE_T_MOD = num * es :=
          Nat.mod_eq_of_lt (by unfold SIZE_MAX at hmul; omega)
        show byteAt (memFill _ q (num * es % SIZE_T_MOD) 0) x = 0
        rw [hmod]
        unfold byteAt memFill
        rw [if_pos ⟨hx1, hx2⟩]

/-- Witness for C8: `calloc(1, 8)` on the 2-page zone `wZone8` yields the
pointer 16416 whose first byte reads zero, while `calloc(2, SIZE_MAX)` is
rejected as an overflow. -/
theorem claim_C8_witness :
    (wZone8.calloc wMem0 1 8).1 = some 16416 ∧
    byteAt (wZone8.calloc wMem0 1 8).2.2 16416 = 0 ∧
    (wZone8.calloc wMem0 2 4294967295).1 = none :=
  ⟨by decide,
   (claim_C8 wZone8 wMem0 1 8).2 16416 (by decide) 16416 (by decide) (by decide),
   (claim_C8 wZone8 wMem0 2 4294967295).1 ⟨by decide, by decide⟩⟩

/-- Claim C9: quarantine invariants — after `init`, `add` and `deactivate`
of a well-formed table, `activeCount` equals the number of active entries,
at most 32 entries are active, active entries carry pairwise distinct
`freeSequence` values (all inside `QInv`), and the sequence `add` assigns is
strictly larger than that of every other entry still active. -/
theorem claim_C9 (q : QuarantineTable) (sp pc rs zi i : Nat)
    (hq : QInv q) (hw : q.nextSequence + 1 < U32)
    (hi : i < ALLOC_QUARANTINE_CAPACITY) (ha : (q.entries i).active ≠ 0) :
    QInv QuarantineTable.init ∧
    q.countActive ≤ ALLOC_QUARANTINE_CAPACITY ∧
    QInv (q.add sp pc rs zi).2 ∧
    QInv (q.deactivate i) ∧
    ∃ sIdx, sIdx < ALLOC_QUARANTINE_CAPACITY ∧
      ((q.add sp pc rs zi).2.entries sIdx).active = 1 ∧
      ((q.add sp pc rs zi).2.entries sIdx).freeSequence = q.nextSequence ∧
      ∀ j, j < ALLOC_QUARANTINE_CAPACITY → j ≠ sIdx →
        ((q.add sp pc rs zi).2.entries j).active ≠ 0 →
        ((q.add sp pc rs zi).2.entries j).freeSequence < q.nextSequence := by
  refine ⟨QInv_init, countBelow_le _ _, QInv_add q sp pc rs zi hq hw,
    QInv_deactivate q i hq hi ha, ?_⟩
  by_cases hfull : ALLOC_QUARANTINE_CAPACITY ≤ q.activeCount
  · obtain ⟨oIdx, ho1, ho2, ho3, hr1, he1, he2, hns, hac⟩ :=
      add_full q sp pc rs zi hq hfull
    refine ⟨oIdx, ho1, by rw [he1]; rfl, by rw [he1]; rfl, ?_⟩
    intro j hj hjne hact
    rw [he2 j hjne] at hact ⊢
    exact hq.2.2.1 j hj hact
  · obtain ⟨sIdx, hs1, hs2, hr1, he1, he2, hns, hac⟩ :=
      add_not_full q sp pc rs zi hq (by omega)
    refine ⟨sIdx, hs1, by rw [he1]; rfl, by rw [he1]; rfl, ?_⟩
    intro j hj hjne hact
    rw [he2 j hjne] at hact ⊢
    exact hq.2.2.1 j hj hact

/-- Witness for C9 on the three-entry table `wQ3` (sequences 1, 2, 3;
`nextSequence = 4`), adding one region and deactivating entry 0. -/
theorem claim_C9_witness :
    QInv wQ3 ∧ wQ3.nextSequence + 1 < U32 ∧ 0 < ALLOC_QUARANTINE_CAPACITY ∧
    (wQ3.entries 0).active ≠ 0 ∧
    (QInv QuarantineTable.init ∧
     wQ3.countActive ≤ ALLOC_QUARANTINE_CAPACITY ∧
     QInv (wQ3.add 9 1 16 1).2 ∧
     QInv (wQ3.deactivate 0) ∧
     ∃ sIdx, sIdx < ALLOC_QUARANTINE_CAPACITY ∧
       ((wQ3.add 9 1 16 1).2.entries sIdx).active = 1 ∧
       ((wQ3.add 9 1 16 1).2.entries sIdx).freeSequence = wQ3.nextSequence ∧
       ∀ j, j < ALLOC_QUARANTINE_CAPACITY → j ≠ sIdx →
         ((wQ3.add 9 1 16 1).2.entries j).active ≠ 0 →
         ((wQ3.add 9 1 16 1).2.entries j).freeSequence < wQ3.nextSequence) :=
  ⟨by decide, by decide, by decide, by decide,
   claim_C9 wQ3 9 1 16 1 0 (by decide) (by decide) (by decide) (by decide)⟩

/-- Claim C10: `findFreeRun` answers −1 whenever the requested run length is
zero or exceeds the bitmap's page count — in particular a zero-length
request is not answered with index 0. -/
theorem claim_C10 (bm : PageBitmap) (count : Nat)
    (h : count = 0 ∨ bm.pageCount < count) : bm.findFreeRun count = -1 := by
  unfold PageBitmap.findFreeRun
  rw [if_pos h]

/-- Witness for C10 on an empty 4-page bitmap, for both guard reasons. -/
theorem claim_C10_witness :
    ((0 : Nat) = 0 ∨ (PageBitmap.init 4).pageCount < 0) ∧
    (PageBitmap.init 4).findFreeRun 0 = -1 ∧
    ((9 : Nat) = 0 ∨ (PageBitmap.init 4).pageCount < 9) ∧
    (PageBitmap.init 4).findFreeRun 9 = -1 :=
  ⟨Or.inl rfl, claim_C10 (PageBitmap.init 4) 0 (Or.inl rfl),
   Or.inr (by decide), claim_C10 (PageBitmap.init 4) 9 (Or.inr (by decide))⟩

end AllocCustom